import Mathlib

/-!
# Verification of the c99js transpiler against its specification

This file is a shallow embedding, in Lean 4, of the parts of the c99js
C99-to-JavaScript transpiler (src/) that the specification's claims talk
about, together with theorems settling each claim.

Each embedded definition is translated directly from the C source file and
function named in its doc comment.  Machine integers are modelled as `Int`
(C `long long` signed arithmetic; signed overflow, which is undefined
behaviour in C, is not wrapped) or as `Nat` with explicit `% 2 ^ 32`
masks where the code relies on 32-bit two's-complement bit tricks.
C strings are modelled as `List Char` / `String`.
-/

/-! ## Type model (src/type.c)

`ATy` enumerates the *arithmetic* type objects that can reach
`type_usual_arith` / `type_int_promote`: the predefined scalar singletons
created by `type_init` (note `ty_char`, `ty_schar`, `ty_uchar` are three
distinct objects) plus enum type objects (`type_enum`), identified by an
arena-object identity `tag : Nat`.  Constructor equality models C pointer
equality of the corresponding `Type *` objects.  `_Complex` types are
excluded: the spec's non-goals (§1) put `_Complex` arithmetic out of scope.
-/

inductive TyKind where
  | TY_BOOL | TY_CHAR | TY_SHORT | TY_INT | TY_LONG | TY_LLONG
  | TY_FLOAT | TY_DOUBLE | TY_LDOUBLE | TY_ENUM
deriving DecidableEq, Repr

inductive ATy where
  | ty_bool | ty_char | ty_schar | ty_uchar | ty_short | ty_ushort
  | ty_int | ty_uint | ty_long | ty_ulong | ty_llong | ty_ullong
  | ty_float | ty_double | ty_ldouble
  | ty_enum (tag : Nat)
deriving DecidableEq, Repr

/-- Kind of each type object, as set by `type_init` / `type_enum`
(src/type.c lines 31-97). -/
def ATy.kind : ATy → TyKind
  | .ty_bool => .TY_BOOL
  | .ty_char | .ty_schar | .ty_uchar => .TY_CHAR
  | .ty_short | .ty_ushort => .TY_SHORT
  | .ty_int | .ty_uint => .TY_INT
  | .ty_long | .ty_ulong => .TY_LONG
  | .ty_llong | .ty_ullong => .TY_LLONG
  | .ty_float => .TY_FLOAT
  | .ty_double => .TY_DOUBLE
  | .ty_ldouble => .TY_LDOUBLE
  | .ty_enum _ => .TY_ENUM

/-- `size` field in bytes, as set by `type_init` (src/type.c lines 31-60)
and `type_enum` (line 94): the fixed 32-bit ABI widths. -/
def ATy.size : ATy → Nat
  | .ty_bool | .ty_char | .ty_schar | .ty_uchar => 1
  | .ty_short | .ty_ushort => 2
  | .ty_int | .ty_uint | .ty_long | .ty_ulong => 4
  | .ty_llong | .ty_ullong => 8
  | .ty_float => 4
  | .ty_double | .ty_ldouble => 8
  | .ty_enum _ => 4

/-- `is_unsigned` flag, as set by `type_init` (src/type.c lines 31-60);
enum types are created with the flag clear (`type_enum`, line 93). -/
def ATy.is_unsigned : ATy → Bool
  | .ty_bool => true
  | .ty_uchar | .ty_ushort | .ty_uint | .ty_ulong | .ty_ullong => true
  | _ => false

/-- `type_rank` (src/type.c lines 207-218). -/
def type_rank (t : ATy) : Nat :=
  match t.kind with
  | .TY_BOOL => 1
  | .TY_CHAR => 2
  | .TY_SHORT => 3
  | .TY_INT => 4
  | .TY_LONG => 5
  | .TY_LLONG => 6
  | .TY_ENUM => 4
  | _ => 0

/-- `type_int_promote` (src/type.c lines 220-227): any type whose rank is
below `int`'s rank (4) — which includes every floating type, whose rank is
the `default:` value 0 — is replaced by `ty_int`. -/
def type_int_promote (t : ATy) : ATy :=
  if type_rank t < type_rank .ty_int then .ty_int else t

/-- `type_usual_arith`, mixed-signedness tail (src/type.c lines 248-259):
`u` is the unsigned operand, `s` the signed one. -/
def usual_arith_mixed (u s : ATy) : ATy :=
  if type_rank u ≥ type_rank s then u
  else if s.size > u.size then s
  else if s.kind = .TY_INT then .ty_uint
  else if s.kind = .TY_LONG then .ty_ulong
  else if s.kind = .TY_LLONG then .ty_ullong
  else .ty_uint

/-- `type_usual_arith`, integer part after promotion (src/type.c lines
239-259), on the already-promoted operands `a'` and `b'`. -/
def usual_arith_int (a' b' : ATy) : ATy :=
  if a' = b' then a'
  else if a'.is_unsigned = b'.is_unsigned then
    if type_rank a' ≥ type_rank b' then a' else b'
  else
    usual_arith_mixed (if a'.is_unsigned then a' else b')
      (if a'.is_unsigned then b' else a')

/-- `type_usual_arith` (src/type.c lines 229-260).  The `at == bt` pointer
comparison is modelled by `ATy` equality (constructor identity). -/
def type_usual_arith (a b : ATy) : ATy :=
  if a.kind = .TY_LDOUBLE ∨ b.kind = .TY_LDOUBLE then .ty_ldouble
  else if a.kind = .TY_DOUBLE ∨ b.kind = .TY_DOUBLE then .ty_double
  else if a.kind = .TY_FLOAT ∨ b.kind = .TY_FLOAT then .ty_float
  else usual_arith_int (type_int_promote a) (type_int_promote b)

/-- Vocabulary for stating claim C1: the "unsigned variant of the signed
operand's type" in the claim's words (spec §4.B). -/
def spec_unsigned_variant : ATy → ATy
  | .ty_int => .ty_uint
  | .ty_long => .ty_ulong
  | .ty_llong => .ty_ullong
  | t => t

/-! ## Semantic analysis of unary operators (src/sema.c)

`sema_unary_type` captures the result-type computation of `check_expr`
for `ND_NEG`, `ND_POS`, `ND_NOT`, `ND_BITNOT` (src/sema.c lines 62-84),
as a function of the operand's type.  (The diagnostics emitted on
non-arithmetic / non-integer operands do not change the assigned type.) -/

inductive UnaryOp where
  | ND_NEG | ND_POS | ND_NOT | ND_BITNOT
deriving DecidableEq, Repr

def sema_unary_type : UnaryOp → ATy → ATy
  | .ND_NEG, t => type_int_promote t
  | .ND_POS, t => type_int_promote t
  | .ND_NOT, _ => .ty_int
  | .ND_BITNOT, t => type_int_promote t

/-! ## Parser AST and constant folding (src/parser.c)

`Node` models the expression AST nodes that `try_eval_const` inspects
(src/ast.h).  `ND_OTHER` stands for every node kind hitting the
`default: return false` arm (identifiers, calls, assignments, …).
`ival` stores the value of the `(long long)n->ival` cast the folder
performs, `cval` the `int` character value. -/

inductive Node where
  | ND_INT_LIT (ival : Int)
  | ND_CHAR_LIT (cval : Int)
  | ND_NEG (lhs : Node)
  | ND_NOT (lhs : Node)
  | ND_BITNOT (lhs : Node)
  | ND_ADD (lhs rhs : Node)
  | ND_SUB (lhs rhs : Node)
  | ND_MUL (lhs rhs : Node)
  | ND_DIV (lhs rhs : Node)
  | ND_MOD (lhs rhs : Node)
  | ND_LSHIFT (lhs rhs : Node)
  | ND_RSHIFT (lhs rhs : Node)
  | ND_LT (lhs rhs : Node)
  | ND_LE (lhs rhs : Node)
  | ND_GT (lhs rhs : Node)
  | ND_GE (lhs rhs : Node)
  | ND_EQ (lhs rhs : Node)
  | ND_NE (lhs rhs : Node)
  | ND_BITAND (lhs rhs : Node)
  | ND_BITOR (lhs rhs : Node)
  | ND_BITXOR (lhs rhs : Node)
  | ND_AND (lhs rhs : Node)
  | ND_OR (lhs rhs : Node)
  | ND_TERNARY (lhs rhs third : Node)
  | ND_CAST (cast_expr : Node)
  | ND_OTHER
deriving DecidableEq, Repr

/-- C `<<` on `long long` (in-range case; shift counts below 0 clamp to a
shift by 0 here, where C is undefined). -/
def c_shl (l r : Int) : Int := l * 2 ^ r.toNat

/-- C `>>` on `long long`: arithmetic shift (floor division), the behaviour
of the reference compilers for negative left operands. -/
def c_shr (l r : Int) : Int := Int.fdiv l (2 ^ r.toNat)

/-- C truth value as `long long`. -/
def c_bool (b : Prop) [Decidable b] : Int := if b then 1 else 0

/-- C `(int)` conversion of a `long long` value (wraps mod 2^32). -/
def c_int_cast (v : Int) : Int := (v + 2 ^ 31) % 2 ^ 32 - 2 ^ 31

/-- `try_eval_const` (src/parser.c lines 31-68): evaluates an AST node as a
64-bit signed constant; `none` models `return false`.  Division and modulo
require a non-zero right operand (`&& r != 0`); bitwise `~` is `-l-1` on
the mathematical integers (two's complement). -/
def try_eval_const : Node → Option Int
  | .ND_INT_LIT i => some i
  | .ND_CHAR_LIT c => some c
  | .ND_NEG l => (try_eval_const l).map (fun v => -v)
  | .ND_NOT l => (try_eval_const l).map (fun v => c_bool (v = 0))
  | .ND_BITNOT l => (try_eval_const l).map (fun v => -v - 1)
  | .ND_ADD l r => do pure ((← try_eval_const l) + (← try_eval_const r))
  | .ND_SUB l r => do pure ((← try_eval_const l) - (← try_eval_const r))
  | .ND_MUL l r => do pure ((← try_eval_const l) * (← try_eval_const r))
  | .ND_DIV l r => do
      let lv ← try_eval_const l
      let rv ← try_eval_const r
      if rv ≠ 0 then pure (Int.tdiv lv rv) else none
  | .ND_MOD l r => do
      let lv ← try_eval_const l
      let rv ← try_eval_const r
      if rv ≠ 0 then pure (Int.tmod lv rv) else none
  | .ND_LSHIFT l r => do pure (c_shl (← try_eval_const l) (← try_eval_const r))
  | .ND_RSHIFT l r => do pure (c_shr (← try_eval_const l) (← try_eval_const r))
  | .ND_LT l r => do pure (c_bool ((← try_eval_const l) < (← try_eval_const r)))
  | .ND_LE l r => do pure (c_bool ((← try_eval_const l) ≤ (← try_eval_const r)))
  | .ND_GT l r => do pure (c_bool ((← try_eval_const r) < (← try_eval_const l)))
  | .ND_GE l r => do pure (c_bool ((← try_eval_const r) ≤ (← try_eval_const l)))
  | .ND_EQ l r => do pure (c_bool ((← try_eval_const l) = (← try_eval_const r)))
  | .ND_NE l r => do pure (c_bool ((← try_eval_const l) ≠ (← try_eval_const r)))
  | .ND_BITAND l r => do pure (Int.land (← try_eval_const l) (← try_eval_const r))
  | .ND_BITOR l r => do pure (Int.lor (← try_eval_const l) (← try_eval_const r))
  | .ND_BITXOR l r => do pure (Int.xor (← try_eval_const l) (← try_eval_const r))
  | .ND_AND l r => do
      pure (c_bool ((← try_eval_const l) ≠ 0 ∧ (← try_eval_const r) ≠ 0))
  | .ND_OR l r => do
      pure (c_bool ((← try_eval_const l) ≠ 0 ∨ (← try_eval_const r) ≠ 0))
  | .ND_TERNARY c t e => do
      let cv ← try_eval_const c
      let tv ← try_eval_const t
      let ev ← try_eval_const e
      pure (if cv ≠ 0 then tv else ev)
  | .ND_CAST e => try_eval_const e
  | .ND_OTHER => none

/-- Array declarator suffix outcome (src/parser.c lines 512-520): a constant
dimension produces `type_array(base, (int)cv)`, otherwise a VLA. -/
inductive ArrTy where
  | array (len : Int)
  | vla
deriving DecidableEq, Repr

/-- The array-dimension context of `parse_declarator`
(src/parser.c lines 512-520). -/
def parse_array_dimension (size : Node) : ArrTy :=
  match try_eval_const size with
  | some cv => .array (c_int_cast cv)
  | none => .vla

/-- The enum-constant initializer context (src/parser.c lines 339-343):
the running value `val` is replaced only when the initializer expression
parsed to a bare `ND_INT_LIT` node. -/
def enum_init_value (e : Node) (val : Int) : Int :=
  match e with
  | .ND_INT_LIT i => i
  | _ => val

/-- The case-label context (src/parser.c lines 1135-1145): `case_val` stays
at its zero-initialized value (`node_new` uses `arena_calloc`) unless the
label expression parsed to a bare `ND_INT_LIT`. -/
def case_recorded_value (e : Node) : Int :=
  match e with
  | .ND_INT_LIT i => i
  | _ => 0

/-- The bitfield-width context (src/parser.c lines 213-222): a bare
`ND_INT_LIT` gives `(int)bw->ival`, anything else records width 1. -/
def bitfield_recorded_width (bw : Node) : Int :=
  match bw with
  | .ND_INT_LIT i => c_int_cast i
  | _ => 1

/-! ## Struct and union member layout (src/parser.c)

The member-layout loop of `parse_type_specifier` (src/parser.c lines
224-249 and 284-290).  A member contributes only its `type_sizeof`,
`type_alignof` and `bit_width` values to the layout, so members are
modelled by those three fields. -/

structure CMember where
  size : Nat
  align : Nat
  bit_width : Int
deriving DecidableEq, Repr

/-- `(offset + align - 1) & ~(align - 1)` on 32-bit integers: for
`1 ≤ align ≤ 2^32` the complement `~(align - 1)` equals `2^32 - align` as
an unsigned 32-bit mask (src/parser.c lines 233, 287). -/
def align_up_mask (offset align : Nat) : Nat :=
  (offset + align - 1) &&& (2 ^ 32 - align)

/-- The struct branch of the member loop (src/parser.c lines 230-236):
tracks the running `offset` high-water mark and `max_align`, records each
member's offset, and advances `offset` by the member size except for
bitfield members (`bit_width >= 0`).  Returns (member offsets, final
offset, final max_align). -/
def struct_layout_go (offset max_align : Nat) :
    List CMember → List Nat × Nat × Nat
  | [] => ([], offset, max_align)
  | m :: ms =>
      let align := m.align
      let max_align' := if align > max_align then align else max_align
      let off := align_up_mask offset align
      let offset' := if m.bit_width < 0 then off + m.size else off
      let rest := struct_layout_go offset' max_align' ms
      (off :: rest.1, rest.2.1, rest.2.2)

/-- Struct layout as completed at src/parser.c lines 284-287:
(member offsets, `ty->size`, `ty->align`). -/
def struct_layout (ms : List CMember) : List Nat × Nat × Nat :=
  let r := struct_layout_go 0 1 ms
  (r.1, align_up_mask r.2.1 r.2.2, r.2.2)

/-- The union branch of the member loop (src/parser.c lines 237-243):
`offset` tracks the maximum member size, `max_align` the maximum member
alignment. -/
def union_layout_go (offset max_align : Nat) : List CMember → Nat × Nat
  | [] => (offset, max_align)
  | m :: ms =>
      let offset' := if m.size > offset then m.size else offset
      let max_align' := if m.align > max_align then m.align else max_align
      union_layout_go offset' max_align' ms

/-- Union layout as completed at src/parser.c lines 284-289: every member
offset is 0 (line 238) and `ty->size` rounds the maximum member size up to
the maximum member alignment. -/
def union_layout (ms : List CMember) : List Nat × Nat × Nat :=
  let r := union_layout_go 0 1 ms
  (ms.map (fun _ => 0), align_up_mask r.1 r.2, r.2)

/-- Claim-C2 vocabulary: `offs` are valid struct member offsets starting
from high-water mark `hw` — each offset is the *smallest* multiple of the
member's alignment that is not less than the running high-water mark, which
then advances by the member's size. -/
def StructOffsetsSpec : Nat → List CMember → List Nat → Prop
  | _, [], [] => True
  | hw, m :: ms, o :: os =>
      (m.align ∣ o ∧ hw ≤ o ∧ (∀ y : Nat, m.align ∣ y → hw ≤ y → o ≤ y)) ∧
      StructOffsetsSpec (o + m.size) ms os
  | _, _, _ => False

/-! ## Macro body substitution (src/preprocess.c, expand_macros_r)

The parameter-substitution loop over a function-like macro's body
(src/preprocess.c lines 464-531): parameters are replaced by argument
texts, `#param` stringifies, `##` pastes, and an identifier of length 12
whose first 11 bytes are `__VA_ARGS__` is replaced by the comma-joined
trailing arguments.  Character classification follows the C `ctype`
calls on ASCII text. -/

def pp_is_ident_start (c : Char) : Bool := c.isAlpha || c == '_'

def pp_is_ident_char (c : Char) : Bool := c.isAlphanum || c == '_'

def pp_is_ws (c : Char) : Bool := c == ' ' || c == '\t'

/-- The `__VA_ARGS__` joining loop (src/preprocess.c lines 478-481):
arguments beyond the named parameters, comma-separated. -/
def comma_join : List String → List Char
  | [] => []
  | [a] => a.data
  | a :: rest => a.data ++ ',' :: comma_join rest

/-- First parameter whose name equals the identifier, with its index
(the `for (MacroParam *mp = m->params; …; pi++)` scan at lines 488-496). -/
def param_index (params : List String) (ident : List Char) : Option Nat :=
  go params 0
where
  go : List String → Nat → Option Nat
    | [], _ => none
    | p :: rest, i => if p.data = ident then some i else go rest (i + 1)

/-- Stringification escaping (src/preprocess.c lines 519-522): `"` and
`\` are preceded by a backslash. -/
def stringify_escape : List Char → List Char
  | [] => []
  | c :: rest =>
      if c = '"' ∨ c = '\\' then '\\' :: c :: stringify_escape rest
      else c :: stringify_escape rest

/-- Whitespace trimming of the output buffer before `##`
(src/preprocess.c lines 502-503). -/
def trim_trailing_ws (acc : List Char) : List Char :=
  (acc.reverse.dropWhile pp_is_ws).reverse

/-- The body-substitution loop (src/preprocess.c lines 466-531), with the
output buffer `tmpbuf` as accumulator `acc`. -/
def subst_body_go (params args : List String) (acc : List Char) :
    (body : List Char) → List Char
  | [] => acc
  | c :: rest =>
    if pp_is_ident_start c then
      let ident := c :: rest.takeWhile pp_is_ident_char
      let rest' := rest.dropWhile pp_is_ident_char
      if ident.length = 12 ∧ ident.take 11 = "__VA_ARGS__".data then
        subst_body_go params args
          (acc ++ comma_join (args.drop params.length)) rest'
      else
        match param_index params ident with
        | some pi =>
            subst_body_go params args
              (acc ++ (if pi < args.length then (args.getD pi "").data else []))
              rest'
        | none => subst_body_go params args (acc ++ ident) rest'
    else if c = '#' ∧ rest.head? = some '#' then
      subst_body_go params args (trim_trailing_ws acc)
        ((rest.drop 1).dropWhile pp_is_ws)
    else if c = '#' then
      let rest1 := rest.dropWhile pp_is_ws
      let name := rest1.takeWhile pp_is_ident_char
      let rest2 := rest1.dropWhile pp_is_ident_char
      match param_index params name with
      | some pi =>
          subst_body_go params args
            (acc ++ '"' ::
              (stringify_escape
                (if pi < args.length then (args.getD pi "").data else []) ++
                ['"']))
            rest2
      | none => subst_body_go params args acc rest2
    else
      subst_body_go params args (acc ++ [c]) rest
termination_by body => body.length
decreasing_by
  all_goals simp_wf
  all_goals
    (have h1 := List.Sublist.length_le
      (List.dropWhile_sublist (l := rest) (p := pp_is_ident_char))
     have h2 := List.Sublist.length_le
      (List.dropWhile_sublist (l := rest) (p := pp_is_ws))
     have h3 := List.Sublist.length_le
      (List.dropWhile_sublist (l := List.dropWhile pp_is_ws rest)
        (p := pp_is_ident_char))
     have h4 := List.Sublist.length_le
      (List.dropWhile_sublist (l := rest.tail) (p := pp_is_ws))
     have h5 := List.length_tail rest
     omega)

/-- Parameter substitution into a macro body (the `tmpbuf` built at
src/preprocess.c lines 464-531 before rescanning). -/
def subst_macro_body (params args : List String) (body : List Char) :
    List Char :=
  subst_body_go params args [] body

/-! ## Symbol table (src/symtab.c)

Scopes are modelled as lists of symbols in insertion (newest-first) order;
the hash buckets only partition chains by name and do not change the
per-name behaviour that claim C8 is about.  `ty : Nat` stands for the
opaque `Type *` pointer stored in a symbol. -/

inductive SymKind where
  | SYM_VAR | SYM_FUNC | SYM_TYPEDEF | SYM_ENUM_CONST | SYM_PARAM
deriving DecidableEq, Repr

inductive StorageClass where
  | SC_NONE | SC_TYPEDEF | SC_EXTERN | SC_STATIC | SC_AUTO | SC_REGISTER
deriving DecidableEq, Repr

structure CSym where
  name : String
  kind : SymKind
  sc : StorageClass
  is_defined : Bool
  ty : Nat
deriving DecidableEq, Repr

structure SymTab where
  current : List CSym
  parents : List (List CSym)
deriving DecidableEq, Repr

/-- Per-scope name search (the bucket scan in `symtab_define` /
`symtab_lookup_current`, src/symtab.c lines 41-42 and 81-88). -/
def scope_find (scope : List CSym) (name : String) : Option CSym :=
  scope.find? (fun s => s.name == name)

/-- In-place mutation of the found symbol's `type` field
(`s->type = type;` in src/symtab.c lines 46 and 52). -/
def scope_update_ty (scope : List CSym) (name : String) (ty : Nat) : List CSym :=
  match scope with
  | [] => []
  | s :: rest =>
      if s.name == name then { s with ty := ty } :: rest
      else s :: scope_update_ty rest name ty

structure DefineResult where
  st : SymTab
  sym : CSym
  redef_error : Bool
deriving DecidableEq, Repr

/-- `symtab_define` (src/symtab.c lines 38-68).  A name found in the
current scope is a redefinition error unless (a) both old and new symbols
are functions and the old one is not defined, or (b) the old symbol has
extern storage class; in those cases the existing symbol's type is replaced
in place and no new entry is created.  An unbound name gets a fresh
zero-initialized entry (`arena_calloc`: `sc = SC_NONE`,
`is_defined = false`) prepended to the current scope's chain. -/
def symtab_define (st : SymTab) (name : String) (kind : SymKind) (ty : Nat) :
    DefineResult :=
  match scope_find st.current name with
  | some s =>
      if s.kind = .SYM_FUNC ∧ kind = .SYM_FUNC ∧ s.is_defined = false then
        { st := { st with current := scope_update_ty st.current name ty }
          sym := { s with ty := ty }
          redef_error := false }
      else if s.sc = .SC_EXTERN then
        { st := { st with current := scope_update_ty st.current name ty }
          sym := { s with ty := ty }
          redef_error := false }
      else
        { st := st, sym := s, redef_error := true }
  | none =>
      let s : CSym :=
        { name := name, kind := kind, sc := .SC_NONE, is_defined := false
          ty := ty }
      { st := { st with current := s :: st.current }, sym := s
        redef_error := false }

/-! ## Preprocessor `#if` expression evaluator (src/preprocess.c lines 204-309)

`pp_eval_primary` models `pp_eval_primary` and `pp_eval_expr` models
`pp_eval_expr`.  A parse position `const char **p` is modelled by returning
the unconsumed suffix of the input character list; the returned suffix
carries a proof that it is no longer than the input, which justifies
termination of the mutual recursion (the C code advances `*p`
monotonically).  `d name` models `find_macro(name) != NULL`.  `strtoll`
overflow clamping (`ERANGE`) is not modelled; the operator loop of
`pp_eval_expr` is split into `pp_eval_loop` (one whitespace skip plus
dispatch) over `pp_eval_loop_core` so every `for (;;)` iteration is one
`pp_eval_loop` call.  The C `lhs && pp_eval_primary(&p)` / `lhs ||
pp_eval_primary(&p)` assignments short-circuit: when `lhs` already decides
the result the right operand is NOT parsed and `*p` stays just after the
operator, which the `&&` / `||` branches reproduce faithfully. -/

def pp_skip_ws (cs : List Char) : List Char := cs.dropWhile pp_is_ws

def pp_is_hex_digit (c : Char) : Bool :=
  c.isDigit || ('a' ≤ c && c ≤ 'f') || ('A' ≤ c && c ≤ 'F')

def pp_is_oct_digit (c : Char) : Bool := '0' ≤ c && c ≤ '7'

def pp_hex_val (c : Char) : Nat :=
  if c.isDigit then c.toNat - '0'.toNat
  else if 'a' ≤ c ∧ c ≤ 'f' then c.toNat - 'a'.toNat + 10
  else c.toNat - 'A'.toNat + 10

def pp_dec_val (c : Char) : Nat := c.toNat - '0'.toNat

def pp_parse_digits (isD : Char → Bool) (valOf : Char → Nat) (base : Nat) :
    (cs : List Char) → Int → Int × {r : List Char // r.length ≤ cs.length}
  | [], acc => (acc, ⟨[], by simp⟩)
  | c :: rest, acc =>
      if isD c then
        let p := pp_parse_digits isD valOf base rest (acc * base + (valOf c : Int))
        (p.1, ⟨p.2.val, by have := p.2.prop; simp; omega⟩)
      else (acc, ⟨c :: rest, by simp⟩)

def pp_strtoll0 (cs : List Char) : Int × {r : List Char // r.length ≤ cs.length} :=
  match cs with
  | [] => (0, ⟨[], by simp⟩)
  | c :: rest =>
      if c = '0' then
        match rest with
        | [] => (0, ⟨[], by simp⟩)
        | c2 :: rest2 =>
            if c2 = 'x' ∨ c2 = 'X' then
              match rest2 with
              | [] => (0, ⟨[c2], by simp⟩)
              | d3 :: rest3 =>
                  if pp_is_hex_digit d3 then
                    let p := pp_parse_digits pp_is_hex_digit pp_hex_val 16 (d3 :: rest3) 0
                    (p.1, ⟨p.2.val, by have := p.2.prop; simp at this ⊢; omega⟩)
                  else (0, ⟨c2 :: d3 :: rest3, by simp⟩)
            else
              let p := pp_parse_digits pp_is_oct_digit pp_dec_val 8 (c2 :: rest2) 0
              (p.1, ⟨p.2.val, by have := p.2.prop; simp at this ⊢; omega⟩)
      else
        let p := pp_parse_digits Char.isDigit pp_dec_val 10 (c :: rest) 0
        (p.1, ⟨p.2.val, p.2.prop⟩)

def pp_is_suffix_char (c : Char) : Bool :=
  c == 'u' || c == 'U' || c == 'l' || c == 'L'

def pp_parse_number (cs : List Char) :
    Int × {r : List Char // r.length ≤ cs.length} :=
  let p := pp_strtoll0 cs
  (p.1, ⟨p.2.val.dropWhile pp_is_suffix_char, by
    have h1 := p.2.prop
    have h2 := List.Sublist.length_le
      (List.dropWhile_sublist (l := p.2.val) (p := pp_is_suffix_char))
    omega⟩)

def pp_skip_parens (depth : Nat) :
    (l : List Char) → {r : List Char // r.length ≤ l.length}
  | [] => ⟨[], by simp⟩
  | c :: rest =>
      if depth = 0 then ⟨c :: rest, by simp⟩
      else
        let r := pp_skip_parens
          (if c = '(' then depth + 1 else if c = ')' then depth - 1 else depth)
          rest
        ⟨r.val, by have := r.prop; simp; omega⟩

def pp_eval_defined (d : List Char → Bool) (l : List Char) :
    Int × {r : List Char // r.length ≤ l.length} :=
  let t1 := (l.drop 7).dropWhile pp_is_ws
  let paren := t1.head? = some '('
  let t2 := if paren then (t1.drop 1).dropWhile pp_is_ws else t1.dropWhile pp_is_ws
  let name := (t2.takeWhile pp_is_ident_char).take 255
  let t3 := t2.dropWhile pp_is_ident_char
  let t4 :=
    if paren then
      let t5 := t3.dropWhile pp_is_ws
      if t5.head? = some ')' then t5.drop 1 else t5
    else t3
  (if d name then 1 else 0, ⟨t4, by
    have h0 := List.length_drop 7 l
    have h1 : t1.length ≤ (l.drop 7).length :=
      List.Sublist.length_le (List.dropWhile_sublist (l := l.drop 7) (p := pp_is_ws))
    have h2 : t2.length ≤ t1.length := by
      simp only [t2]
      split
      · have ha := List.Sublist.length_le
          (List.dropWhile_sublist (l := t1.drop 1) (p := pp_is_ws))
        have hb := List.length_drop 1 t1
        omega
      · exact List.Sublist.length_le (List.dropWhile_sublist (l := t1) (p := pp_is_ws))
    have h3 : t3.length ≤ t2.length :=
      List.Sublist.length_le (List.dropWhile_sublist (l := t2) (p := pp_is_ident_char))
    have h4 : t4.length ≤ t3.length := by
      simp only [t4]
      split
      · have ha := List.Sublist.length_le
          (List.dropWhile_sublist (l := t3) (p := pp_is_ws))
        split
        · have hb := List.length_drop 1 (t3.dropWhile pp_is_ws)
          omega
        · omega
      · omega
    omega⟩)

def pp_defined_follows_ok (l : List Char) : Bool :=
  match (l.drop 7).head? with
  | none => true
  | some c => !(c.isAlphanum || c == '_')

def pp_eval_atom (d : List Char → Bool) (l : List Char) :
    Int × {r : List Char // r.length ≤ l.length} :=
  if l.take 7 = "defined".data ∧ pp_defined_follows_ok l then
    pp_eval_defined d l
  else
    match l with
    | [] => (0, ⟨[], by simp⟩)
    | c :: rest =>
        if c.isDigit then
          pp_parse_number (c :: rest)
        else if c = '\'' then
          match rest with
          | [] => (0, ⟨[], by simp⟩)
          | v :: rest2 =>
              ((v.toNat : Int),
                ⟨if rest2.head? = some '\'' then rest2.tail else rest2, by
                  split
                  · have := List.length_tail rest2
                    simp only [List.length_cons]
                    omega
                  · simp only [List.length_cons]; omega⟩)
        else if c.isAlpha ∨ c = '_' then
          (0, ⟨(c :: rest).dropWhile pp_is_ident_char, by
            exact List.Sublist.length_le
              (List.dropWhile_sublist (l := c :: rest) (p := pp_is_ident_char))⟩)
        else (0, ⟨c :: rest, le_refl _⟩)

theorem pp_lex_helper {a b c d : Nat} (h : a < c ∨ (a = c ∧ b < d)) :
    Prod.Lex (· < ·) (· < ·) (a, b) (c, d) := by
  rcases h with h | ⟨h1, h2⟩
  · exact Prod.Lex.left _ _ h
  · subst h1; exact Prod.Lex.right _ h2

mutual

def pp_eval_primary_core (d : List Char → Bool) (l : List Char) :
    Int × {r : List Char // r.length ≤ l.length} :=
  match l with
  | [] => (0, ⟨[], by simp⟩)
  | c :: rest =>
      if c = '(' then
        (pp_eval_expr d rest,
          ⟨(pp_skip_parens 1 rest).val, by
            have := (pp_skip_parens 1 rest).prop
            simp only [List.length_cons]
            omega⟩)
      else if c = '!' then
        let p := pp_eval_primary d rest
        (c_bool (p.1 = 0), ⟨p.2.val, by
          have := p.2.prop
          simp only [List.length_cons]
          omega⟩)
      else if c = '-' then
        let p := pp_eval_primary d rest
        (-p.1, ⟨p.2.val, by
          have := p.2.prop
          simp only [List.length_cons]
          omega⟩)
      else if c = '+' then
        let p := pp_eval_primary d rest
        (p.1, ⟨p.2.val, by
          have := p.2.prop
          simp only [List.length_cons]
          omega⟩)
      else pp_eval_atom d (c :: rest)
termination_by (l.length, 0)
decreasing_by
all_goals simp_wf
all_goals apply pp_lex_helper
all_goals
  (try simp only [List.length_cons]
   omega)

def pp_eval_primary (d : List Char → Bool) (cs : List Char) :
    Int × {r : List Char // r.length ≤ cs.length} :=
  let p := pp_eval_primary_core d (pp_skip_ws cs)
  (p.1, ⟨p.2.val, by
    have h1 := p.2.prop
    have h2 : (pp_skip_ws cs).length ≤ cs.length :=
      List.Sublist.length_le (List.dropWhile_sublist (l := cs) (p := pp_is_ws))
    omega⟩)
termination_by (cs.length, 1)
decreasing_by
all_goals apply pp_lex_helper
all_goals
  (have hws : (pp_skip_ws cs).length ≤ cs.length :=
     List.Sublist.length_le (List.dropWhile_sublist (l := cs) (p := pp_is_ws))
   omega)

def pp_eval_loop_core (d : List Char → Bool) (lhs : Int) (t : List Char) : Int :=
  match t with
  | [] => lhs
  | c :: rest =>
      if c = '+' then
        if rest.head? = some '+' then lhs
        else
          match pp_eval_primary d rest with
          | (v, ⟨r, _hr⟩) => pp_eval_loop d (lhs + v) r
      else if c = '-' then
        if rest.head? = some '-' then lhs
        else
          match pp_eval_primary d rest with
          | (v, ⟨r, _hr⟩) => pp_eval_loop d (lhs - v) r
      else if c = '*' then
        match pp_eval_primary d rest with
        | (v, ⟨r, _hr⟩) => pp_eval_loop d (lhs * v) r
      else if c = '/' then
        match pp_eval_primary d rest with
        | (v, ⟨r, _hr⟩) => pp_eval_loop d (if v = 0 then 0 else Int.tdiv lhs v) r
      else if c = '%' then
        match pp_eval_primary d rest with
        | (v, ⟨r, _hr⟩) => pp_eval_loop d (if v = 0 then 0 else Int.tmod lhs v) r
      else if c = '<' then
        if rest.head? = some '<' then
          match pp_eval_primary d rest.tail with
          | (v, ⟨r, _hr⟩) => pp_eval_loop d (c_shl lhs v) r
        else if rest.head? = some '=' then
          match pp_eval_primary d rest.tail with
          | (v, ⟨r, _hr⟩) => pp_eval_loop d (c_bool (lhs ≤ v)) r
        else
          match pp_eval_primary d rest with
          | (v, ⟨r, _hr⟩) => pp_eval_loop d (c_bool (lhs < v)) r
      else if c = '>' then
        if rest.head? = some '>' then
          match pp_eval_primary d rest.tail with
          | (v, ⟨r, _hr⟩) => pp_eval_loop d (c_shr lhs v) r
        else if rest.head? = some '=' then
          match pp_eval_primary d rest.tail with
          | (v, ⟨r, _hr⟩) => pp_eval_loop d (c_bool (v ≤ lhs)) r
        else
          match pp_eval_primary d rest with
          | (v, ⟨r, _hr⟩) => pp_eval_loop d (c_bool (v < lhs)) r
      else if c = '=' then
        if rest.head? = some '=' then
          match pp_eval_primary d rest.tail with
          | (v, ⟨r, _hr⟩) => pp_eval_loop d (c_bool (lhs = v)) r
        else lhs
      else if c = '!' then
        if rest.head? = some '=' then
          match pp_eval_primary d rest.tail with
          | (v, ⟨r, _hr⟩) => pp_eval_loop d (c_bool (lhs ≠ v)) r
        else lhs
      else if c = '&' then
        if rest.head? = some '&' then
          if lhs = 0 then pp_eval_loop d 0 rest.tail
          else
            match pp_eval_primary d rest.tail with
            | (v, ⟨r, _hr⟩) => pp_eval_loop d (c_bool (v ≠ 0)) r
        else
          match pp_eval_primary d rest with
          | (v, ⟨r, _hr⟩) => pp_eval_loop d (Int.land lhs v) r
      else if c = '|' then
        if rest.head? = some '|' then
          if lhs = 0 then
            match pp_eval_primary d rest.tail with
            | (v, ⟨r, _hr⟩) => pp_eval_loop d (c_bool (v ≠ 0)) r
          else pp_eval_loop d 1 rest.tail
        else
          match pp_eval_primary d rest with
          | (v, ⟨r, _hr⟩) => pp_eval_loop d (Int.lor lhs v) r
      else if c = '^' then
        match pp_eval_primary d rest with
        | (v, ⟨r, _hr⟩) => pp_eval_loop d (Int.xor lhs v) r
      else lhs
termination_by (t.length, 2)
decreasing_by
all_goals simp_wf
all_goals apply pp_lex_helper
all_goals
  (try simp only [List.length_tail] at *
   try simp only [List.length_cons]
   omega)

def pp_eval_loop (d : List Char → Bool) (lhs : Int) (cs : List Char) : Int :=
  pp_eval_loop_core d lhs (pp_skip_ws cs)
termination_by (cs.length, 3)
decreasing_by
all_goals apply pp_lex_helper
all_goals
  (have hws : (pp_skip_ws cs).length ≤ cs.length :=
     List.Sublist.length_le (List.dropWhile_sublist (l := cs) (p := pp_is_ws))
   omega)

def pp_eval_expr (d : List Char → Bool) (cs : List Char) : Int :=
  match pp_eval_primary d cs with
  | (v, ⟨r, _hr⟩) => pp_eval_loop d v r
termination_by (cs.length, 4)
decreasing_by
all_goals apply pp_lex_helper
all_goals omega

end

def pp_eval_primary_v (d : List Char → Bool) (cs : List Char) : Int :=
  (pp_eval_primary d cs).1

def pp_eval_primary_r (d : List Char → Bool) (cs : List Char) : List Char :=
  (pp_eval_primary d cs).2.val

def pp_eval_core_v (d : List Char → Bool) (l : List Char) : Int :=
  (pp_eval_primary_core d l).1

def pp_eval_core_r (d : List Char → Bool) (l : List Char) : List Char :=
  (pp_eval_primary_core d l).2.val

def pp_eval_atom_v (d : List Char → Bool) (l : List Char) : Int :=
  (pp_eval_atom d l).1

def pp_eval_atom_r (d : List Char → Bool) (l : List Char) : List Char :=
  (pp_eval_atom d l).2.val

def pp_if_step (skip_depth : Nat) (val : Int) : Nat :=
  if skip_depth > 0 then skip_depth + 1
  else if val = 0 then 1 else skip_depth

/-! ## Code generator fragment (src/codegen.c)

`gen_expr` transcribes the expression lowering of `gen_expr`
(src/codegen.c lines 310-554) for the sub-language relevant to claims C7
and C9: literals, identifiers, the unary operators, the fifteen
arithmetic/comparison/bitwise binary operators (lines 466-554, with their
float64, BigInt, pointer and scalar modes) and `&&`/`||`.  The mutable
output buffer becomes the returned string; `%d`/`%lld` become `intDec`.
`gen_f64_wrap` is `gen_f64_val` (lines 300-308) applied to the operand's
already-generated text.  Note the transcription of the BigInt mode (lines
509-521): the C computes `bool is_cmp = ...` there but never reads it, so
no `? 1 : 0` normalization is emitted in that mode.  `gen_ret_stmt` is the
non-aggregate `return e;` case of `gen_stmt` (lines 1084-1087), and
`indent_str` is `emit_indent` (two spaces per level).  `has_dsp` scans a
character list for the substring `.sp`, the distinguishing text of the
stack-pointer restore `rt.mem.sp = saved_sp` (identifiers cannot contain
a dot, hence `ids_no_dot`). -/

inductive GTyKind where
  | TY_VOID | TY_BOOL | TY_CHAR | TY_SHORT | TY_INT | TY_LONG | TY_LLONG
  | TY_FLOAT | TY_DOUBLE | TY_LDOUBLE | TY_ENUM | TY_PTR | TY_ARRAY | TY_VLA
  | TY_STRUCT | TY_UNION | TY_FUNC
deriving DecidableEq, Repr

inductive GTy where
  | mk (kind : GTyKind) (is_unsigned : Bool) (size : Int) (base : Option GTy)

def GTy.kind : GTy → GTyKind
  | .mk k _ _ _ => k

def GTy.is_unsigned : GTy → Bool
  | .mk _ u _ _ => u

def GTy.size : GTy → Int
  | .mk _ _ s _ => s

def GTy.base : GTy → Option GTy
  | .mk _ _ _ b => b

def type_is_u64 : Option GTy → Bool
  | some t => t.kind == .TY_LLONG
  | none => false

def type_is_double_g : Option GTy → Bool
  | some t => t.kind == .TY_DOUBLE || t.kind == .TY_LDOUBLE
  | none => false

def type_is_ptr_g : Option GTy → Bool
  | some t => t.kind == .TY_PTR
  | none => false

def type_is_array_g : Option GTy → Bool
  | some t => t.kind == .TY_ARRAY || t.kind == .TY_VLA
  | none => false

def type_is_integer_g : Option GTy → Bool
  | some t =>
      t.kind == .TY_BOOL || t.kind == .TY_CHAR || t.kind == .TY_SHORT ||
      t.kind == .TY_INT || t.kind == .TY_LONG || t.kind == .TY_LLONG ||
      t.kind == .TY_ENUM
  | none => false

def js_getter : Option GTy → String
  | none => "readInt32"
  | some t =>
      match t.kind with
      | .TY_BOOL => "readUint8"
      | .TY_CHAR => if t.is_unsigned then "readUint8" else "readInt8"
      | .TY_SHORT => if t.is_unsigned then "readUint16" else "readInt16"
      | .TY_INT => if t.is_unsigned then "readUint32" else "readInt32"
      | .TY_ENUM => if t.is_unsigned then "readUint32" else "readInt32"
      | .TY_LONG => if t.is_unsigned then "readUint32" else "readInt32"
      | .TY_LLONG => if t.is_unsigned then "readBigUint64" else "readBigInt64"
      | .TY_FLOAT => "readFloat32"
      | .TY_DOUBLE => "readBigUint64"
      | .TY_LDOUBLE => "readBigUint64"
      | .TY_PTR => "readUint32"
      | _ => "readInt32"

def type_sz_g : Option GTy → Int
  | none => 4
  | some t => if t.size > 0 then t.size else 4

def digitChar (d : Nat) : Char := Char.ofNat (48 + d)

def natDecGo : Nat → Nat → List Char
  | 0, _ => []
  | fuel + 1, n =>
      if n < 10 then [digitChar n]
      else natDecGo fuel (n / 10) ++ [digitChar (n % 10)]

def intDec (i : Int) : String :=
  if i < 0 then "-" ++ ⟨natDecGo ((-i).toNat + 1) (-i).toNat⟩
  else ⟨natDecGo (i.toNat + 1) i.toNat⟩

structure CGVar where
  name : String
  addr : Int
  is_local : Bool
  ty : Option GTy

structure GSym where
  kind : SymKind
  sc : StorageClass
  enum_val : Int

structure CG where
  locals : List CGVar
  globals : List CGVar
  symtab : String → Option GSym

def cg_var_find (cg : CG) (name : String) : Option CGVar :=
  match cg.locals.find? (fun v => v.name == name) with
  | some v => some v
  | none => cg.globals.find? (fun v => v.name == name)

def gen_addr_ident (cg : CG) (name : String) : String :=
  match cg_var_find cg name with
  | some v =>
      if v.is_local then "(bp + (" ++ intDec v.addr ++ "))"
      else intDec v.addr
  | none =>
      match cg.symtab name with
      | some sym =>
          if sym.kind = .SYM_FUNC then "__fp_" ++ name
          else "0 /* unknown: " ++ name ++ " */"
      | none => "0 /* unknown: " ++ name ++ " */"

inductive GBinOp where
  | ND_ADD | ND_SUB | ND_MUL | ND_DIV | ND_MOD
  | ND_LSHIFT | ND_RSHIFT
  | ND_LT | ND_LE | ND_GT | ND_GE | ND_EQ | ND_NE
  | ND_BITAND | ND_BITOR | ND_BITXOR
deriving DecidableEq, Repr

def gbin_op_str : GBinOp → String
  | .ND_ADD => "+"
  | .ND_SUB => "-"
  | .ND_MUL => "*"
  | .ND_DIV => "/"
  | .ND_MOD => "%"
  | .ND_LSHIFT => "<<"
  | .ND_RSHIFT => ">>"
  | .ND_LT => "<"
  | .ND_LE => "<="
  | .ND_GT => ">"
  | .ND_GE => ">="
  | .ND_EQ => "==="
  | .ND_NE => "!=="
  | .ND_BITAND => "&"
  | .ND_BITOR => "|"
  | .ND_BITXOR => "^"

def gbin_is_cmp : GBinOp → Bool
  | .ND_LT | .ND_LE | .ND_GT | .ND_GE | .ND_EQ | .ND_NE => true
  | _ => false

inductive GNode where
  | intLit (ival : Int) (ty : Option GTy)
  | charLit (cval : Int) (ty : Option GTy)
  | ident (name : String) (ty : Option GTy)
  | neg (lhs : GNode) (ty : Option GTy)
  | pos (lhs : GNode) (ty : Option GTy)
  | notE (lhs : GNode) (ty : Option GTy)
  | bitnot (lhs : GNode) (ty : Option GTy)
  | binary (k : GBinOp) (lhs rhs : GNode) (ty : Option GTy)
  | andE (lhs rhs : GNode) (ty : Option GTy)
  | orE (lhs rhs : GNode) (ty : Option GTy)

def GNode.ty : GNode → Option GTy
  | .intLit _ t => t
  | .charLit _ t => t
  | .ident _ t => t
  | .neg _ t => t
  | .pos _ t => t
  | .notE _ t => t
  | .bitnot _ t => t
  | .binary _ _ _ t => t
  | .andE _ _ t => t
  | .orE _ _ t => t

def gen_f64_wrap (is_dbl is_u64 : Bool) (s : String) : String :=
  if is_dbl then "rt.f64(" ++ s ++ ")"
  else if is_u64 then "Number(" ++ s ++ ")"
  else s

def gen_expr (cg : CG) : GNode → String
  | .intLit i _ => intDec i
  | .charLit c _ => intDec c
  | .ident name _ =>
      match cg_var_find cg name with
      | none =>
          match cg.symtab name with
          | some sym =>
              if sym.kind = .SYM_FUNC then "__fp_" ++ name
              else if sym.kind = .SYM_ENUM_CONST then intDec sym.enum_val
              else if sym.kind = .SYM_VAR ∧ sym.sc = .SC_EXTERN then
                if name = "stdin" then "rt.stdin"
                else if name = "stdout" then "rt.stdout"
                else if name = "stderr" then "rt.stderr"
                else "0 /* extern: " ++ name ++ " */"
              else "0 /* undef: " ++ name ++ " */"
          | none => "0 /* undef: " ++ name ++ " */"
      | some v =>
          if v.ty.any (fun t => t.kind == .TY_ARRAY || t.kind == .TY_VLA ||
              t.kind == .TY_STRUCT || t.kind == .TY_UNION) then
            gen_addr_ident cg name
          else if v.ty.any (fun t => t.kind == .TY_FUNC) then
            "_" ++ name
          else
            "rt.mem." ++ js_getter v.ty ++ "(" ++ gen_addr_ident cg name ++ ")"
  | .neg l t =>
      if type_is_double_g t then
        "rt.f64bits(-rt.f64(" ++ gen_expr cg l ++ "))"
      else
        "(-(" ++ gen_expr cg l ++ "))"
  | .pos l _ => "(+(" ++ gen_expr cg l ++ "))"
  | .notE l _ => "((" ++ gen_expr cg l ++ ") ? 0 : 1)"
  | .bitnot l _ => "(~(" ++ gen_expr cg l ++ "))"
  | .binary k l r t =>
      let op := gbin_op_str k
      if type_is_double_g l.ty || type_is_double_g r.ty || type_is_double_g t then
        if gbin_is_cmp k then
          "((" ++ gen_f64_wrap (type_is_double_g l.ty) (type_is_u64 l.ty) (gen_expr cg l) ++
            " " ++ op ++ " " ++
            gen_f64_wrap (type_is_double_g r.ty) (type_is_u64 r.ty) (gen_expr cg r) ++
            ") ? 1 : 0)"
        else
          "rt.f64bits(" ++
            gen_f64_wrap (type_is_double_g l.ty) (type_is_u64 l.ty) (gen_expr cg l) ++
            " " ++ op ++ " " ++
            gen_f64_wrap (type_is_double_g r.ty) (type_is_u64 r.ty) (gen_expr cg r) ++ ")"
      else if type_is_u64 l.ty || type_is_u64 r.ty || type_is_u64 t then
        "(" ++
          (if type_is_u64 l.ty then gen_expr cg l else "BigInt(" ++ gen_expr cg l ++ ")") ++
          " " ++ op ++ " " ++
          (if type_is_u64 r.ty then gen_expr cg r else "BigInt(" ++ gen_expr cg r ++ ")") ++
          ")"
      else
        let lp := type_is_ptr_g l.ty || type_is_array_g l.ty
        let rp := type_is_ptr_g r.ty || type_is_array_g r.ty
        if (k = .ND_ADD ∨ k = .ND_SUB) ∧ lp ∧ ¬rp then
          let esz := match l.ty with
            | some t2 => match t2.base with
              | some b => type_sz_g (some b)
              | none => 1
            | none => 1
          "(" ++ gen_expr cg l ++ " " ++ op ++ " " ++ gen_expr cg r ++
            (if esz > 1 then " * " ++ intDec esz else "") ++ ")"
        else if k = .ND_ADD ∧ rp ∧ ¬lp then
          let esz := match r.ty with
            | some t2 => match t2.base with
              | some b => type_sz_g (some b)
              | none => 1
            | none => 1
          "(" ++ gen_expr cg l ++ (if esz > 1 then " * " ++ intDec esz else "") ++
            " + " ++ gen_expr cg r ++ ")"
        else if k = .ND_SUB ∧ lp ∧ rp then
          let esz := match l.ty with
            | some t2 => match t2.base with
              | some b => type_sz_g (some b)
              | none => 1
            | none => 1
          "((" ++ gen_expr cg l ++ " - " ++ gen_expr cg r ++ ")" ++
            (if esz > 1 then " / " ++ intDec esz else "") ++ " | 0)"
        else if k = .ND_DIV ∧ type_is_integer_g t then
          "((" ++ gen_expr cg l ++ " / " ++ gen_expr cg r ++ ") | 0)"
        else if gbin_is_cmp k then
          "((" ++ gen_expr cg l ++ " " ++ op ++ " " ++ gen_expr cg r ++ ") ? 1 : 0)"
        else
          "(" ++ gen_expr cg l ++ " " ++ op ++ " " ++ gen_expr cg r ++ ")"
  | .andE l r _ =>
      "((" ++ gen_expr cg l ++ " && " ++ gen_expr cg r ++ ") ? 1 : 0)"
  | .orE l r _ =>
      "((" ++ gen_expr cg l ++ " || " ++ gen_expr cg r ++ ") ? 1 : 0)"

def indent_str (n : Nat) : String := ⟨List.replicate (2 * n) ' '⟩

def gen_ret_stmt (cg : CG) (ind : Nat) (e : GNode) : String :=
  indent_str ind ++ "var __ret = " ++ gen_expr cg e ++
    "; rt.mem.sp = saved_sp; return __ret;\n"

def has_dsp : List Char → Bool
  | [] => false
  | [_] => false
  | [_, _] => false
  | a :: b :: c :: rest => (a == '.' && b == 's' && c == 'p') || has_dsp (b :: c :: rest)

abbrev sp_ok (l : List Char) : Prop :=
  has_dsp l = false ∧ l.getLast? ≠ some '.' ∧ l.reverse.take 2 ≠ ['s', '.']

def ids_no_dot : GNode → Bool
  | .intLit _ _ => true
  | .charLit _ _ => true
  | .ident name _ => !(name.data.contains '.')
  | .neg l _ => ids_no_dot l
  | .pos l _ => ids_no_dot l
  | .notE l _ => ids_no_dot l
  | .bitnot l _ => ids_no_dot l
  | .binary _ l r _ => ids_no_dot l && ids_no_dot r
  | .andE l r _ => ids_no_dot l && ids_no_dot r
  | .orE l r _ => ids_no_dot l && ids_no_dot r

abbrev sp_okS (s : String) : Prop := sp_ok s.data

def gty_ll : GTy := .mk .TY_LLONG false 8 none

def gty_int : GTy := .mk .TY_INT false 4 none

def gty_dbl : GTy := .mk .TY_DOUBLE false 8 none

def cg_frame : CG :=
  ⟨[⟨"a", -8, true, some gty_ll⟩, ⟨"b", -16, true, some gty_ll⟩,
    ⟨"c", -24, true, some gty_int⟩, ⟨"d", -32, true, some gty_int⟩,
    ⟨"e", -40, true, some gty_dbl⟩, ⟨"f", -48, true, some gty_dbl⟩],
   [], fun _ => none⟩

/-! ### Theorems for claims C1 and C6 -/

/-- Computation helper: two references to the same enum type object. -/
theorem type_usual_arith_enum_eq (t : Nat) :
    type_usual_arith (.ty_enum t) (.ty_enum t) = .ty_enum t := by
  simp [type_usual_arith, usual_arith_int, ATy.kind, type_int_promote, type_rank]

/-- Computation helper: two distinct enum type objects (same rank and
signedness): the first operand is returned. -/
theorem type_usual_arith_enum_ne (t1 t2 : Nat) (h : t1 ≠ t2) :
    type_usual_arith (.ty_enum t1) (.ty_enum t2) = .ty_enum t1 := by
  simp [type_usual_arith, usual_arith_int, ATy.kind, type_int_promote, type_rank,
    ATy.is_unsigned, h]

set_option maxHeartbeats 2000000 in
/-- **C1.** `type_usual_arith` implements the C99 §6.3.1.8 usual arithmetic
conversions under the fixed 32-bit widths, on the arithmetic types
(`_Complex` excluded as out of the spec's scope): long double dominates,
then double, then float; otherwise both operands are integer-promoted and
(same signedness) the higher-rank type wins, while (mixed signedness) the
unsigned type wins when its rank is at least the signed type's rank, the
signed type wins when its size strictly exceeds the unsigned type's size,
and otherwise the result is the unsigned variant of the signed type; in
particular `signed long` with `unsigned int` yields `unsigned long`. -/
theorem type_usual_arith_c99 (a b : ATy) :
    ((a.kind = .TY_LDOUBLE ∨ b.kind = .TY_LDOUBLE) →
      type_usual_arith a b = .ty_ldouble)
    ∧ (¬ (a.kind = .TY_LDOUBLE ∨ b.kind = .TY_LDOUBLE) →
       (a.kind = .TY_DOUBLE ∨ b.kind = .TY_DOUBLE) →
      type_usual_arith a b = .ty_double)
    ∧ (¬ (a.kind = .TY_LDOUBLE ∨ b.kind = .TY_LDOUBLE) →
       ¬ (a.kind = .TY_DOUBLE ∨ b.kind = .TY_DOUBLE) →
       (a.kind = .TY_FLOAT ∨ b.kind = .TY_FLOAT) →
      type_usual_arith a b = .ty_float)
    ∧ (¬ (a.kind = .TY_LDOUBLE ∨ b.kind = .TY_LDOUBLE) →
       ¬ (a.kind = .TY_DOUBLE ∨ b.kind = .TY_DOUBLE) →
       ¬ (a.kind = .TY_FLOAT ∨ b.kind = .TY_FLOAT) →
       ((type_int_promote a).is_unsigned = (type_int_promote b).is_unsigned →
         (type_rank (type_int_promote b) < type_rank (type_int_promote a) →
           type_usual_arith a b = type_int_promote a)
         ∧ (type_rank (type_int_promote a) < type_rank (type_int_promote b) →
           type_usual_arith a b = type_int_promote b)
         ∧ (type_usual_arith a b = type_int_promote a ∨
            type_usual_arith a b = type_int_promote b)
         ∧ type_rank (type_usual_arith a b) =
             max (type_rank (type_int_promote a))
                 (type_rank (type_int_promote b)))
       ∧ ((type_int_promote a).is_unsigned ≠ (type_int_promote b).is_unsigned →
           (type_rank (if (type_int_promote a).is_unsigned then type_int_promote b
                       else type_int_promote a) ≤
            type_rank (if (type_int_promote a).is_unsigned then type_int_promote a
                       else type_int_promote b) →
             type_usual_arith a b =
               (if (type_int_promote a).is_unsigned then type_int_promote a
                else type_int_promote b))
           ∧ (type_rank (if (type_int_promote a).is_unsigned then type_int_promote a
                         else type_int_promote b) <
              type_rank (if (type_int_promote a).is_unsigned then type_int_promote b
                         else type_int_promote a) →
              (if (type_int_promote a).is_unsigned then type_int_promote a
               else type_int_promote b).size <
              (if (type_int_promote a).is_unsigned then type_int_promote b
               else type_int_promote a).size →
             type_usual_arith a b =
               (if (type_int_promote a).is_unsigned then type_int_promote b
                else type_int_promote a))
           ∧ (type_rank (if (type_int_promote a).is_unsigned then type_int_promote a
                         else type_int_promote b) <
              type_rank (if (type_int_promote a).is_unsigned then type_int_promote b
                         else type_int_promote a) →
              (if (type_int_promote a).is_unsigned then type_int_promote b
               else type_int_promote a).size ≤
              (if (type_int_promote a).is_unsigned then type_int_promote a
               else type_int_promote b).size →
             type_usual_arith a b =
               spec_unsigned_variant
                 (if (type_int_promote a).is_unsigned then type_int_promote b
                  else type_int_promote a))))
    ∧ type_usual_arith .ty_long .ty_uint = .ty_ulong := by
  cases a <;> cases b <;> try decide
  case ty_enum.ty_enum t1 t2 =>
    rcases eq_or_ne t1 t2 with h | h
    · subst h
      simp [type_usual_arith_enum_eq, type_int_promote, type_rank,
        spec_unsigned_variant, ATy.kind, ATy.size, ATy.is_unsigned]
      decide
    · simp [type_usual_arith_enum_ne t1 t2 h, type_int_promote, type_rank,
        spec_unsigned_variant, ATy.kind, ATy.size, ATy.is_unsigned]
      decide
  all_goals
    simp [type_usual_arith, usual_arith_int, usual_arith_mixed, type_int_promote,
      type_rank, spec_unsigned_variant, ATy.kind, ATy.size, ATy.is_unsigned]

/-- Witness for C1 at concrete inputs: `signed long` combined with
`unsigned int` (mixed signedness, equal sizes) yields `unsigned long`,
and `short` with `char` promotes to `int`. -/
theorem type_usual_arith_c99_witness :
    type_usual_arith .ty_long .ty_uint = .ty_ulong ∧
    type_usual_arith .ty_short .ty_char = .ty_int := by
  constructor
  · exact (type_usual_arith_c99 .ty_long .ty_uint).2.2.2.2
  · have h := (((type_usual_arith_c99 .ty_short .ty_char).2.2.2.1
      (by decide) (by decide) (by decide)).1 (by decide)).2.2.1
    rcases h with h' | h' <;> exact h'

/-- **C6 (code evaluated at the failing inputs).** After semantic analysis
`!e` has type `int` and `~e`, `+e`, `-e` get `type_int_promote` of the
operand type — but `type_int_promote` maps *every* rank-0 type, including
`float`, `double` and `long double`, to `int` (src/type.c lines 216, 222),
so a floating operand of unary `+`/`-` yields static type `int`, not the
operand's type as the claim states.  (The `expr_is_double(n)` branch of the
code generator for `ND_NEG`, src/codegen.c line 390, is consequently
unreachable on sema-typed trees — evidence that this is a slip, not
intent.)  The last two conjuncts record the behaviour the claim gets
right: `!` yields `int`, sub-`int` ranks promote to `int`, and `int`-rank
and higher integer types are unchanged. -/
theorem sema_unary_float_promotes_to_int :
    sema_unary_type .ND_NEG .ty_double = .ty_int ∧
    sema_unary_type .ND_POS .ty_float = .ty_int ∧
    sema_unary_type .ND_NEG .ty_ldouble = .ty_int ∧
    sema_unary_type .ND_NOT .ty_double = .ty_int ∧
    sema_unary_type .ND_NEG .ty_char = .ty_int ∧
    sema_unary_type .ND_BITNOT .ty_long = .ty_long := by decide

/-! ### Theorems for claim C5 -/

/-- **C5 (counterexample).** The constant expression `1 + 2` is evaluable
by `try_eval_const` (to 3), yet the enum-initializer context leaves the
running value unchanged (`enum { A = 1 + 2 }` gives `A` the value 0, not
3), the case-label context records 0, and the bitfield-width context
records 1 — contradicting the claim that these contexts use the folded
value. -/
theorem const_contexts_counterexample :
    try_eval_const (.ND_ADD (.ND_INT_LIT 1) (.ND_INT_LIT 2)) = some 3 ∧
    enum_init_value (.ND_ADD (.ND_INT_LIT 1) (.ND_INT_LIT 2)) 0 = 0 ∧
    case_recorded_value (.ND_ADD (.ND_INT_LIT 1) (.ND_INT_LIT 2)) = 0 ∧
    bitfield_recorded_width (.ND_ADD (.ND_INT_LIT 2) (.ND_INT_LIT 1)) = 1 := by
  decide

/-- **C5 (amended).** Of the four contexts, only the array-dimension
context uses `try_eval_const` (falling back to a VLA when folding fails);
the enum-initializer, case-label and bitfield-width contexts accept only an
expression already parsed to a bare integer-literal node, and otherwise
keep the previous enum value, record case value 0, and record bit width 1
respectively. -/
theorem const_contexts_amended (e : Node) (v prev : Int) :
    (try_eval_const e = some v →
      parse_array_dimension e = .array (c_int_cast v)) ∧
    (try_eval_const e = none → parse_array_dimension e = .vla) ∧
    (∀ i : Int, enum_init_value (.ND_INT_LIT i) prev = i ∧
      case_recorded_value (.ND_INT_LIT i) = i ∧
      bitfield_recorded_width (.ND_INT_LIT i) = c_int_cast i) ∧
    ((∀ i : Int, e ≠ .ND_INT_LIT i) →
      enum_init_value e prev = prev ∧
      case_recorded_value e = 0 ∧
      bitfield_recorded_width e = 1) := by
  refine ⟨?_, ?_, ?_, ?_⟩
  · intro h; simp [parse_array_dimension, h]
  · intro h; simp [parse_array_dimension, h]
  · intro i; exact ⟨rfl, rfl, rfl⟩
  · intro h
    cases e
    case ND_INT_LIT i => exact absurd rfl (h i)
    all_goals exact ⟨rfl, rfl, rfl⟩

/-- Witness for C5's amended claim at concrete inputs: the array dimension
`[1 + 2]` folds to a constant array length, and the enum context ignores
the same non-literal expression. -/
theorem const_contexts_amended_witness :
    parse_array_dimension (.ND_ADD (.ND_INT_LIT 1) (.ND_INT_LIT 2)) =
      .array (c_int_cast 3) ∧
    enum_init_value (.ND_ADD (.ND_INT_LIT 1) (.ND_INT_LIT 2)) 7 = 7 := by
  constructor
  · exact (const_contexts_amended (.ND_ADD (.ND_INT_LIT 1) (.ND_INT_LIT 2))
      3 0).1 (by decide)
  · exact ((const_contexts_amended (.ND_ADD (.ND_INT_LIT 1) (.ND_INT_LIT 2))
      3 7).2.2.2 (by intro i; simp)).1

/-! ### Theorems for claim C8 -/

/-- `scope_update_ty` rewrites one symbol in place and never changes the
number of entries in the scope. -/
theorem scope_update_ty_length (l : List CSym) (name : String) (ty : Nat) :
    (scope_update_ty l name ty).length = l.length := by
  induction l with
  | nil => rfl
  | cons s rest ih =>
      unfold scope_update_ty
      by_cases h : s.name == name <;> simp [h, ih]

/-- **C8.** `symtab_define` reports a redefinition error iff the name is
already bound in the current scope and neither exception applies —
(a) existing function symbol without a definition, redeclared as a
function, or (b) existing symbol with extern storage class.  In the
exception cases no new entry is created: the existing symbol is returned
with its type replaced in place.  A name not bound in the current scope
(even if bound in an enclosing scope) is never a redefinition: a fresh
entry is prepended to the current scope, shadowing outer bindings. -/
theorem symtab_define_spec (st : SymTab) (name : String) (kind : SymKind)
    (ty : Nat) :
    ((symtab_define st name kind ty).redef_error = true ↔
      ∃ s, scope_find st.current name = some s ∧
        ¬ (s.kind = .SYM_FUNC ∧ kind = .SYM_FUNC ∧ s.is_defined = false) ∧
        s.sc ≠ .SC_EXTERN)
    ∧ (∀ s, scope_find st.current name = some s →
        ((s.kind = .SYM_FUNC ∧ kind = .SYM_FUNC ∧ s.is_defined = false) ∨
          s.sc = .SC_EXTERN) →
        (symtab_define st name kind ty).redef_error = false ∧
        (symtab_define st name kind ty).sym = { s with ty := ty } ∧
        (symtab_define st name kind ty).st.current =
          scope_update_ty st.current name ty ∧
        (symtab_define st name kind ty).st.current.length =
          st.current.length ∧
        (symtab_define st name kind ty).st.parents = st.parents)
    ∧ (scope_find st.current name = none →
        (symtab_define st name kind ty).redef_error = false ∧
        (symtab_define st name kind ty).st.current =
          { name := name, kind := kind, sc := .SC_NONE, is_defined := false
            ty := ty } :: st.current ∧
        (symtab_define st name kind ty).st.parents = st.parents) := by
  rcases h : scope_find st.current name with _ | s
  · refine ⟨?_, ?_, ?_⟩
    · simp [symtab_define, h]
    · intro s hs; simp [h] at hs
    · intro _; simp [symtab_define, h]
  · have hclause2 : ∀ s' : CSym, some s = some s' → s' = s := by
      intro s' hs'
      exact (Option.some.inj hs').symm
    by_cases hf : s.kind = .SYM_FUNC ∧ kind = .SYM_FUNC ∧ s.is_defined = false
    · refine ⟨?_, ?_, ?_⟩
      · simp [symtab_define, h, hf]
      · intro s' hs' _
        rcases hclause2 s' hs'
        simp [symtab_define, h, hf, scope_update_ty_length]
      · intro hn
        exact Option.noConfusion hn
    · by_cases he : s.sc = .SC_EXTERN
      · refine ⟨?_, ?_, ?_⟩
        · simp [symtab_define, h, hf, he]
        · intro s' hs' _
          rcases hclause2 s' hs'
          simp [symtab_define, h, hf, he, scope_update_ty_length]
        · intro hn
          exact Option.noConfusion hn
      · refine ⟨?_, ?_, ?_⟩
        · simp [symtab_define, h, hf, he]
          intro h1 h2
          by_contra hc
          exact hf ⟨h1, h2, by simpa using hc⟩
        · intro s' hs' hexc
          rcases hclause2 s' hs'
          rcases hexc with hexc | hexc
          · exact absurd hexc hf
          · exact absurd hexc he
        · intro hn
          exact Option.noConfusion hn

/-- Witness for C8 at concrete inputs: redefining a plain variable in the
same scope errors; redeclaring an undefined function does not and rewrites
its type in place; an unbound name gets a fresh entry. -/
theorem symtab_define_spec_witness :
    (symtab_define ⟨[⟨"x", .SYM_VAR, .SC_NONE, false, 1⟩], []⟩
      "x" .SYM_VAR 2).redef_error = true ∧
    (symtab_define ⟨[⟨"f", .SYM_FUNC, .SC_NONE, false, 3⟩], []⟩
      "f" .SYM_FUNC 4).redef_error = false ∧
    (symtab_define ⟨[⟨"f", .SYM_FUNC, .SC_NONE, false, 3⟩], []⟩
      "f" .SYM_FUNC 4).sym.ty = 4 ∧
    (symtab_define ⟨[], [[⟨"y", .SYM_VAR, .SC_NONE, false, 5⟩]]⟩
      "y" .SYM_VAR 6).redef_error = false := by
  refine ⟨?_, ?_, ?_, ?_⟩
  · exact (symtab_define_spec ⟨[⟨"x", .SYM_VAR, .SC_NONE, false, 1⟩], []⟩
      "x" .SYM_VAR 2).1.mpr
      ⟨⟨"x", .SYM_VAR, .SC_NONE, false, 1⟩, by decide, by decide, by decide⟩
  · exact ((symtab_define_spec ⟨[⟨"f", .SYM_FUNC, .SC_NONE, false, 3⟩], []⟩
      "f" .SYM_FUNC 4).2.1 ⟨"f", .SYM_FUNC, .SC_NONE, false, 3⟩
      (by decide) (Or.inl (by decide))).1
  · exact congrArg CSym.ty ((symtab_define_spec
      ⟨[⟨"f", .SYM_FUNC, .SC_NONE, false, 3⟩], []⟩
      "f" .SYM_FUNC 4).2.1 ⟨"f", .SYM_FUNC, .SC_NONE, false, 3⟩
      (by decide) (Or.inl (by decide))).2.1
  · exact ((symtab_define_spec ⟨[], [[⟨"y", .SYM_VAR, .SC_NONE, false, 5⟩]]⟩
      "y" .SYM_VAR 6).2.2 (by decide)).1

/-! ### Theorems for claim C2 -/

/-- The 32-bit AND mask `2^32 - 2^i` keeps exactly bits `i … 31`: for
`y < 2^32` it clears the low `i` bits, leaving `2^i * (y / 2^i)`. -/
theorem and_two_pow_mask (i y : Nat) (hi : i ≤ 32) (hy : y < 2 ^ 32) :
    y &&& (2 ^ 32 - 2 ^ i) = 2 ^ i * (y / 2 ^ i) := by
  have h32 : 2 ^ i * 2 ^ (32 - i) = 2 ^ 32 := by
    rw [← pow_add]
    congr 1
    omega
  have hmask : 2 ^ 32 - 2 ^ i = 2 ^ i * (2 ^ (32 - i) - 1) := by
    rw [Nat.mul_sub_one] at *
    omega
  apply Nat.eq_of_testBit_eq
  intro j
  rw [hmask, Nat.testBit_and, Nat.testBit_mul_pow_two, Nat.testBit_mul_pow_two,
    Nat.testBit_two_pow_sub_one]
  rcases Nat.lt_or_ge j i with hj | hj
  · simp [Nat.not_le_of_lt hj]
  · have hdiv : (y / 2 ^ i).testBit (j - i) = y.testBit j := by
      rw [← Nat.shiftRight_eq_div_pow, Nat.testBit_shiftRight]
      congr 1
      omega
    rcases Nat.lt_or_ge j 32 with hj32 | hj32
    · have h1 : j - i < 32 - i := by omega
      simp [hj, h1, hdiv]
    · have hbit : y.testBit j = false :=
        Nat.testBit_lt_two_pow
          (lt_of_lt_of_le hy (Nat.pow_le_pow_right (by omega) hj32))
      have h1 : ¬ (j - i < 32 - i) := by omega
      simp [hj, h1, hdiv, hbit]

/-- `align_up_mask` with a power-of-two alignment computes the smallest
multiple of the alignment that is not less than the offset. -/
theorem align_up_mask_spec (x i : Nat) (hi : i ≤ 31) (hx : x + 2 ^ i ≤ 2 ^ 32) :
    2 ^ i ∣ align_up_mask x (2 ^ i) ∧
    x ≤ align_up_mask x (2 ^ i) ∧
    align_up_mask x (2 ^ i) < x + 2 ^ i := by
  have h0 : 0 < 2 ^ i := Nat.two_pow_pos i
  have hmask := and_two_pow_mask i (x + 2 ^ i - 1) (by omega) (by omega)
  have hdm := Nat.div_add_mod (x + 2 ^ i - 1) (2 ^ i)
  have hmod : (x + 2 ^ i - 1) % 2 ^ i < 2 ^ i := Nat.mod_lt _ h0
  unfold align_up_mask
  rw [hmask]
  refine ⟨⟨(x + 2 ^ i - 1) / 2 ^ i, rfl⟩, ?_, ?_⟩ <;> omega

/-- Two multiples of `a` within `a` of each other are ordered. -/
theorem le_of_dvd_lt_add {a r y : Nat} (hr : a ∣ r) (hy : a ∣ y)
    (h : r < y + a) : r ≤ y := by
  obtain ⟨q, hq⟩ := hr
  obtain ⟨k, hk⟩ := hy
  subst hq hk
  have hlt : a * q < a * (k + 1) := by
    rw [Nat.mul_add, Nat.mul_one]
    omega
  have hqk : q < k + 1 := Nat.lt_of_mul_lt_mul_left hlt
  exact Nat.mul_le_mul_left a (by omega)

/-- Invariant of the struct layout loop: starting from any high-water mark
and running maximum alignment, the recorded offsets satisfy the
least-multiple specification, the final offset is bounded by the input
plus the members' total size-plus-alignment, and the final max alignment
is the maximum of the input and the member alignments. -/
theorem struct_layout_go_spec (ms : List CMember) (offset maxa : Nat)
    (hpow : ∀ m ∈ ms, ∃ k, k ≤ 31 ∧ m.align = 2 ^ k)
    (hnb : ∀ m ∈ ms, m.bit_width < 0)
    (hoff : offset + (ms.map (fun m => m.size + m.align)).sum ≤ 2 ^ 32) :
    StructOffsetsSpec offset ms (struct_layout_go offset maxa ms).1 ∧
    (struct_layout_go offset maxa ms).2.1 ≤
      offset + (ms.map (fun m => m.size + m.align)).sum ∧
    maxa ≤ (struct_layout_go offset maxa ms).2.2 ∧
    (∀ m ∈ ms, m.align ≤ (struct_layout_go offset maxa ms).2.2) ∧
    ((struct_layout_go offset maxa ms).2.2 = maxa ∨
      ∃ m ∈ ms, m.align = (struct_layout_go offset maxa ms).2.2) := by
  induction ms generalizing offset maxa with
  | nil => simp [struct_layout_go, StructOffsetsSpec]
  | cons m ms ih =>
      obtain ⟨k, hk, hka⟩ := hpow m (by simp)
      have hnbm : m.bit_width < 0 := hnb m (by simp)
      have hsum : ((m :: ms).map (fun x => x.size + x.align)).sum
          = m.size + m.align + (ms.map (fun x => x.size + x.align)).sum := by
        simp
      rw [hsum] at hoff
      have hup := align_up_mask_spec offset k hk (by omega)
      rw [← hka] at hup
      set maxa2 := if m.align > maxa then m.align else maxa with hmaxa2
      have hA : maxa ≤ maxa2 := by
        rw [hmaxa2]
        split <;> omega
      have hB : m.align ≤ maxa2 := by
        rw [hmaxa2]
        split <;> omega
      have hC : maxa2 = maxa ∨ maxa2 = m.align := by
        rw [hmaxa2]
        split <;> simp
      obtain ⟨hspec, hbound, hmax1, hmax2, hmax3⟩ :=
        ih (align_up_mask offset m.align + m.size) maxa2
          (fun x hx => hpow x (by simp [hx]))
          (fun x hx => hnb x (by simp [hx]))
          (by have := hup.2.2; omega)
      have hstep1 : (struct_layout_go offset maxa (m :: ms)).1 =
          align_up_mask offset m.align ::
            (struct_layout_go (align_up_mask offset m.align + m.size)
              maxa2 ms).1 := by
        simp only [struct_layout_go, if_pos hnbm, hmaxa2]
      have hstep2 : (struct_layout_go offset maxa (m :: ms)).2.1 =
          (struct_layout_go (align_up_mask offset m.align + m.size)
              maxa2 ms).2.1 := by
        simp only [struct_layout_go, if_pos hnbm, hmaxa2]
      have hstep3 : (struct_layout_go offset maxa (m :: ms)).2.2 =
          (struct_layout_go (align_up_mask offset m.align + m.size)
              maxa2 ms).2.2 := by
        simp only [struct_layout_go, if_pos hnbm, hmaxa2]
      rw [hstep1, hstep2, hstep3, hsum]
      refine ⟨⟨⟨hup.1, hup.2.1, ?_⟩, hspec⟩, ?_, ?_, ?_, ?_⟩
      · intro y hdy hhy
        exact le_of_dvd_lt_add hup.1 hdy (lt_of_lt_of_le hup.2.2 (by omega))
      · have := hup.2.2
        omega
      · exact le_trans hA hmax1
      · intro x hx
        rcases List.mem_cons.mp hx with hx | hx
        · subst hx
          exact le_trans hB hmax1
        · exact hmax2 x hx
      · rcases hmax3 with hmax3 | ⟨x, hx, hxa⟩
        · rcases hC with hC | hC
          · exact Or.inl (hmax3.trans hC)
          · exact Or.inr ⟨m, by simp, (hmax3.trans hC).symm⟩
        · exact Or.inr ⟨x, by simp [hx], hxa⟩

/-- Invariant of the union layout loop: the final `offset` is the maximum
of the input and the member sizes, and the final `max_align` is the maximum
of the input and the member alignments. -/
theorem union_layout_go_spec (ms : List CMember) (offset maxa : Nat) :
    offset ≤ (union_layout_go offset maxa ms).1 ∧
    (∀ m ∈ ms, m.size ≤ (union_layout_go offset maxa ms).1) ∧
    ((union_layout_go offset maxa ms).1 = offset ∨
      ∃ m ∈ ms, m.size = (union_layout_go offset maxa ms).1) ∧
    maxa ≤ (union_layout_go offset maxa ms).2 ∧
    (∀ m ∈ ms, m.align ≤ (union_layout_go offset maxa ms).2) ∧
    ((union_layout_go offset maxa ms).2 = maxa ∨
      ∃ m ∈ ms, m.align = (union_layout_go offset maxa ms).2) := by
  induction ms generalizing offset maxa with
  | nil => simp [union_layout_go]
  | cons m ms ih =>
      set off2 := if m.size > offset then m.size else offset with hoff2
      set maxa2 := if m.align > maxa then m.align else maxa with hmaxa2
      have hstep : union_layout_go offset maxa (m :: ms) =
          union_layout_go off2 maxa2 ms := by
        simp only [union_layout_go, hoff2, hmaxa2]
      obtain ⟨h1, h2, h3, h4, h5, h6⟩ := ih off2 maxa2
      have hsA : offset ≤ off2 := by
        rw [hoff2]
        split <;> omega
      have hsB : m.size ≤ off2 := by
        rw [hoff2]
        split <;> omega
      have hsC : off2 = offset ∨ off2 = m.size := by
        rw [hoff2]
        split <;> simp
      have haA : maxa ≤ maxa2 := by
        rw [hmaxa2]
        split <;> omega
      have haB : m.align ≤ maxa2 := by
        rw [hmaxa2]
        split <;> omega
      have haC : maxa2 = maxa ∨ maxa2 = m.align := by
        rw [hmaxa2]
        split <;> simp
      rw [hstep]
      refine ⟨le_trans hsA h1, ?_, ?_, le_trans haA h4, ?_, ?_⟩
      · intro x hx
        rcases List.mem_cons.mp hx with hx | hx
        · subst hx
          exact le_trans hsB h1
        · exact h2 x hx
      · rcases h3 with h3 | ⟨x, hx, hxs⟩
        · rcases hsC with hsC | hsC
          · exact Or.inl (h3.trans hsC)
          · exact Or.inr ⟨m, by simp, (h3.trans hsC).symm⟩
        · exact Or.inr ⟨x, by simp [hx], hxs⟩
      · intro x hx
        rcases List.mem_cons.mp hx with hx | hx
        · subst hx
          exact le_trans haB h4
        · exact h5 x hx
      · rcases h6 with h6 | ⟨x, hx, hxa⟩
        · rcases haC with haC | haC
          · exact Or.inl (h6.trans haC)
          · exact Or.inr ⟨m, by simp, (h6.trans haC).symm⟩
        · exact Or.inr ⟨x, by simp [hx], hxa⟩

/-- **C2.** For a struct whose members are all non-bitfield, each member's
offset is the smallest multiple of its alignment not below the running
high-water mark (which then advances by the member's size), the struct
alignment is the maximum member alignment (1 for an empty member list),
and the struct size is the final high-water mark rounded up to the struct
alignment — in particular a multiple of it.  For a union, every member
offset is 0 and the size is the maximum member size rounded up to the
maximum member alignment.  (Alignments are powers of two — all alignments
produced by the type model are — and the total size stays within the
32-bit range the code's mask arithmetic assumes.) -/
theorem struct_union_layout_c2 (ms : List CMember)
    (hpow : ∀ m ∈ ms, ∃ k, k ≤ 31 ∧ m.align = 2 ^ k)
    (hbound : (ms.map (fun m => m.size + m.align)).sum ≤ 2 ^ 31) :
    ((∀ m ∈ ms, m.bit_width < 0) →
      StructOffsetsSpec 0 ms (struct_layout ms).1 ∧
      (∀ m ∈ ms, m.align ≤ (struct_layout ms).2.2) ∧
      ((struct_layout ms).2.2 = 1 ∨
        ∃ m ∈ ms, m.align = (struct_layout ms).2.2) ∧
      (struct_layout ms).2.2 ∣ (struct_layout ms).2.1 ∧
      (struct_layout_go 0 1 ms).2.1 ≤ (struct_layout ms).2.1 ∧
      (struct_layout ms).2.1 <
        (struct_layout_go 0 1 ms).2.1 + (struct_layout ms).2.2) ∧
    ((union_layout ms).1 = ms.map (fun _ => 0) ∧
      (∀ m ∈ ms, m.size ≤ (union_layout_go 0 1 ms).1) ∧
      ((union_layout_go 0 1 ms).1 = 0 ∨
        ∃ m ∈ ms, m.size = (union_layout_go 0 1 ms).1) ∧
      (∀ m ∈ ms, m.align ≤ (union_layout ms).2.2) ∧
      ((union_layout ms).2.2 = 1 ∨
        ∃ m ∈ ms, m.align = (union_layout ms).2.2) ∧
      (union_layout ms).2.2 ∣ (union_layout ms).2.1 ∧
      (union_layout_go 0 1 ms).1 ≤ (union_layout ms).2.1 ∧
      (union_layout ms).2.1 <
        (union_layout_go 0 1 ms).1 + (union_layout ms).2.2) := by
  have hsum_mem : ∀ m ∈ ms, m.size + m.align ≤
      (ms.map (fun m => m.size + m.align)).sum := by
    intro m hm
    exact List.single_le_sum (fun x _ => Nat.zero_le x) _
      (List.mem_map_of_mem _ hm)
  constructor
  · intro hnb
    obtain ⟨hspec, hbnd, hmax1, hmax2, hmax3⟩ :=
      struct_layout_go_spec ms 0 1 hpow hnb (by omega)
    have e1 : (struct_layout ms).1 = (struct_layout_go 0 1 ms).1 := rfl
    have e2 : (struct_layout ms).2.1 =
        align_up_mask (struct_layout_go 0 1 ms).2.1
          (struct_layout_go 0 1 ms).2.2 := rfl
    have e3 : (struct_layout ms).2.2 = (struct_layout_go 0 1 ms).2.2 := rfl
    have hpow2 : ∃ k, k ≤ 31 ∧ (struct_layout_go 0 1 ms).2.2 = 2 ^ k := by
      rcases hmax3 with h | ⟨m, hm, hma⟩
      · exact ⟨0, by omega, by simpa using h⟩
      · obtain ⟨k, hk, hka⟩ := hpow m hm
        exact ⟨k, hk, by rw [← hma, hka]⟩
    obtain ⟨k, hk, hka⟩ := hpow2
    have hk31 : 2 ^ k ≤ 2 ^ 31 := Nat.pow_le_pow_right (by omega) hk
    have hupf := align_up_mask_spec (struct_layout_go 0 1 ms).2.1 k hk
      (by omega)
    rw [← hka] at hupf
    refine ⟨by rw [e1]; exact hspec, by rw [e3]; exact hmax2,
      by rw [e3]; exact hmax3, ?_, ?_, ?_⟩
    · rw [e2, e3, hka]
      exact hka ▸ hupf.1
    · rw [e2]
      exact hupf.2.1
    · rw [e2, e3]
      exact hupf.2.2
  · obtain ⟨hu1, hu2, hu3, hu4, hu5, hu6⟩ := union_layout_go_spec ms 0 1
    have e1 : (union_layout ms).1 = ms.map (fun _ => 0) := rfl
    have e2 : (union_layout ms).2.1 =
        align_up_mask (union_layout_go 0 1 ms).1
          (union_layout_go 0 1 ms).2 := rfl
    have e3 : (union_layout ms).2.2 = (union_layout_go 0 1 ms).2 := rfl
    have hsz : (union_layout_go 0 1 ms).1 ≤ 2 ^ 31 := by
      rcases hu3 with h | ⟨m, hm, hms⟩
      · omega
      · have := hsum_mem m hm
        omega
    have hpow2 : ∃ k, k ≤ 31 ∧ (union_layout_go 0 1 ms).2 = 2 ^ k := by
      rcases hu6 with h | ⟨m, hm, hma⟩
      · exact ⟨0, by omega, by simpa using h⟩
      · obtain ⟨k, hk, hka⟩ := hpow m hm
        exact ⟨k, hk, by rw [← hma, hka]⟩
    obtain ⟨k, hk, hka⟩ := hpow2
    have hk31 : 2 ^ k ≤ 2 ^ 31 := Nat.pow_le_pow_right (by omega) hk
    have hupf := align_up_mask_spec (union_layout_go 0 1 ms).1 k hk (by omega)
    rw [← hka] at hupf
    refine ⟨e1, hu2, hu3, by rw [e3]; exact hu5, by rw [e3]; exact hu6,
      ?_, ?_, ?_⟩
    · rw [e2, e3]
      exact hupf.1
    · rw [e2]
      exact hupf.2.1
    · rw [e2, e3]
      exact hupf.2.2

/-- Witness for C2 at a concrete member list — `struct { char a; int b;
short c; }`: offsets 0, 4, 8; size 12; alignment 4; as a union: size 4,
alignment 4, offsets all 0. -/
theorem struct_union_layout_c2_witness :
    StructOffsetsSpec 0
      [⟨1, 1, -1⟩, ⟨4, 4, -1⟩, ⟨2, 2, -1⟩]
      (struct_layout [⟨1, 1, -1⟩, ⟨4, 4, -1⟩, ⟨2, 2, -1⟩]).1 ∧
    (struct_layout [⟨1, 1, -1⟩, ⟨4, 4, -1⟩, ⟨2, 2, -1⟩]).1 = [0, 4, 8] ∧
    (struct_layout [⟨1, 1, -1⟩, ⟨4, 4, -1⟩, ⟨2, 2, -1⟩]).2.1 = 12 ∧
    (struct_layout [⟨1, 1, -1⟩, ⟨4, 4, -1⟩, ⟨2, 2, -1⟩]).2.2 = 4 ∧
    (union_layout [⟨1, 1, -1⟩, ⟨4, 4, -1⟩, ⟨2, 2, -1⟩]).1 = [0, 0, 0] ∧
    (union_layout [⟨1, 1, -1⟩, ⟨4, 4, -1⟩, ⟨2, 2, -1⟩]).2.1 = 4 := by
  have h := struct_union_layout_c2 [⟨1, 1, -1⟩, ⟨4, 4, -1⟩, ⟨2, 2, -1⟩]
    (by
      intro m hm
      simp [List.mem_cons] at hm
      rcases hm with hm | hm | hm <;> subst hm
      · exact ⟨0, by omega, rfl⟩
      · exact ⟨2, by omega, rfl⟩
      · exact ⟨1, by omega, rfl⟩)
    (by decide)
  refine ⟨(h.1 (by decide)).1, by decide, by decide, by decide, by decide,
    by decide⟩

/-! ### Theorems for claim C4 -/

/-- **C4 (code evaluated at the failing input).** The `__VA_ARGS__` branch
of the substitution loop requires an identifier of **length 12** whose
first 11 bytes are `__VA_ARGS__` (`blen == 12 && memcmp(bs, "__VA_ARGS__",
11) == 0`, src/preprocess.c line 475) — but the token `__VA_ARGS__` itself
is 11 characters long, so the branch never fires for it: in
`#define F(...) __VA_ARGS__`, invoking `F(1,2)` substitutes nothing and
the literal text `__VA_ARGS__` survives into the output (rescanning does
not remove it: no macro of that name exists).  A 12-character identifier
such as `__VA_ARGS__x` *is* replaced by the comma-joined arguments,
confirming the off-by-one. -/
theorem va_args_never_substituted :
    subst_macro_body [] ["1", "2"] "__VA_ARGS__".data = "__VA_ARGS__".data ∧
    "__VA_ARGS__".data.length = 11 ∧
    subst_macro_body [] ["1", "2"] ("__VA_ARGS__x".data) = "1,2".data ∧
    subst_macro_body ["a"] ["7", "8", "9"] "__VA_ARGS__".data =
      "__VA_ARGS__".data := by
  refine ⟨?_, by decide, ?_, ?_⟩ <;>
    simp [subst_macro_body, subst_body_go, param_index, param_index.go,
      comma_join, pp_is_ident_start, pp_is_ident_char, pp_is_ws]

/-! ### Theorems for claims C3 and C10

The evaluator's result pairs live in a type that depends on the input list
(the no-longer-than bound), which blocks rewriting inside argument
positions; the `_v` / `_r` projection wrappers below are plain functions
and the lemmas in this section restate the defining equations in terms of
them, one per operator head.  They double as the step-by-step
characterization of the flat, precedence-free operator loop. -/

theorem pp_eval_primary_v_eq (d : List Char → Bool) (cs : List Char) :
    pp_eval_primary_v d cs = pp_eval_core_v d (pp_skip_ws cs) := by
  rw [pp_eval_primary_v, pp_eval_primary]; rfl

theorem pp_eval_primary_r_eq (d : List Char → Bool) (cs : List Char) :
    pp_eval_primary_r d cs = pp_eval_core_r d (pp_skip_ws cs) := by
  rw [pp_eval_primary_r, pp_eval_primary]; rfl

theorem pp_eval_core_v_nil (d : List Char → Bool) :
    pp_eval_core_v d [] = 0 := by
  rw [pp_eval_core_v, pp_eval_primary_core]

theorem pp_eval_core_v_cons (d : List Char → Bool) (c : Char) (rest : List Char) :
    pp_eval_core_v d (c :: rest) =
      if c = '(' then pp_eval_expr d rest
      else if c = '!' then c_bool (pp_eval_primary_v d rest = 0)
      else if c = '-' then -(pp_eval_primary_v d rest)
      else if c = '+' then pp_eval_primary_v d rest
      else pp_eval_atom_v d (c :: rest) := by
  rw [pp_eval_core_v, pp_eval_primary_core]; split_ifs <;> rfl

theorem pp_eval_core_r_nil (d : List Char → Bool) :
    pp_eval_core_r d [] = [] := by
  rw [pp_eval_core_r, pp_eval_primary_core]

theorem pp_eval_core_r_cons (d : List Char → Bool) (c : Char) (rest : List Char) :
    pp_eval_core_r d (c :: rest) =
      if c = '(' then (pp_skip_parens 1 rest).val
      else if c = '!' then pp_eval_primary_r d rest
      else if c = '-' then pp_eval_primary_r d rest
      else if c = '+' then pp_eval_primary_r d rest
      else pp_eval_atom_r d (c :: rest) := by
  rw [pp_eval_core_r, pp_eval_primary_core]; split_ifs <;> rfl

theorem pp_eval_loop_eq (d : List Char → Bool) (lhs : Int) (cs : List Char) :
    pp_eval_loop d lhs cs = pp_eval_loop_core d lhs (pp_skip_ws cs) := by
  rw [pp_eval_loop]

theorem pp_eval_loop_core_nil (d : List Char → Bool) (lhs : Int) :
    pp_eval_loop_core d lhs [] = lhs := by
  rw [pp_eval_loop_core]

theorem pp_eval_loop_core_add (d : List Char → Bool) (lhs : Int) (rest : List Char) :
    pp_eval_loop_core d lhs ('+' :: rest) =
      if rest.head? = some '+' then lhs
      else pp_eval_loop d (lhs + pp_eval_primary_v d rest) (pp_eval_primary_r d rest) := by
  rw [pp_eval_loop_core]; rfl

theorem pp_eval_loop_core_sub (d : List Char → Bool) (lhs : Int) (rest : List Char) :
    pp_eval_loop_core d lhs ('-' :: rest) =
      if rest.head? = some '-' then lhs
      else pp_eval_loop d (lhs - pp_eval_primary_v d rest) (pp_eval_primary_r d rest) := by
  rw [pp_eval_loop_core]; rfl

theorem pp_eval_loop_core_mul (d : List Char → Bool) (lhs : Int) (rest : List Char) :
    pp_eval_loop_core d lhs ('*' :: rest) =
      pp_eval_loop d (lhs * pp_eval_primary_v d rest) (pp_eval_primary_r d rest) := by
  rw [pp_eval_loop_core]; rfl

theorem pp_eval_loop_core_div (d : List Char → Bool) (lhs : Int) (rest : List Char) :
    pp_eval_loop_core d lhs ('/' :: rest) =
      pp_eval_loop d
        (if pp_eval_primary_v d rest = 0 then 0 else Int.tdiv lhs (pp_eval_primary_v d rest))
        (pp_eval_primary_r d rest) := by
  rw [pp_eval_loop_core]; rfl

theorem pp_eval_loop_core_mod (d : List Char → Bool) (lhs : Int) (rest : List Char) :
    pp_eval_loop_core d lhs ('%' :: rest) =
      pp_eval_loop d
        (if pp_eval_primary_v d rest = 0 then 0 else Int.tmod lhs (pp_eval_primary_v d rest))
        (pp_eval_primary_r d rest) := by
  rw [pp_eval_loop_core]; rfl

theorem pp_eval_loop_core_lt (d : List Char → Bool) (lhs : Int) (rest : List Char) :
    pp_eval_loop_core d lhs ('<' :: rest) =
      if rest.head? = some '<' then
        pp_eval_loop d (c_shl lhs (pp_eval_primary_v d rest.tail)) (pp_eval_primary_r d rest.tail)
      else if rest.head? = some '=' then
        pp_eval_loop d (c_bool (lhs ≤ pp_eval_primary_v d rest.tail)) (pp_eval_primary_r d rest.tail)
      else
        pp_eval_loop d (c_bool (lhs < pp_eval_primary_v d rest)) (pp_eval_primary_r d rest) := by
  rw [pp_eval_loop_core]; rfl

theorem pp_eval_loop_core_gt (d : List Char → Bool) (lhs : Int) (rest : List Char) :
    pp_eval_loop_core d lhs ('>' :: rest) =
      if rest.head? = some '>' then
        pp_eval_loop d (c_shr lhs (pp_eval_primary_v d rest.tail)) (pp_eval_primary_r d rest.tail)
      else if rest.head? = some '=' then
        pp_eval_loop d (c_bool (pp_eval_primary_v d rest.tail ≤ lhs)) (pp_eval_primary_r d rest.tail)
      else
        pp_eval_loop d (c_bool (pp_eval_primary_v d rest < lhs)) (pp_eval_primary_r d rest) := by
  rw [pp_eval_loop_core]; rfl

theorem pp_eval_loop_core_eq2 (d : List Char → Bool) (lhs : Int) (rest : List Char) :
    pp_eval_loop_core d lhs ('=' :: rest) =
      if rest.head? = some '=' then
        pp_eval_loop d (c_bool (lhs = pp_eval_primary_v d rest.tail)) (pp_eval_primary_r d rest.tail)
      else lhs := by
  rw [pp_eval_loop_core]; rfl

theorem pp_eval_loop_core_ne (d : List Char → Bool) (lhs : Int) (rest : List Char) :
    pp_eval_loop_core d lhs ('!' :: rest) =
      if rest.head? = some '=' then
        pp_eval_loop d (c_bool (lhs ≠ pp_eval_primary_v d rest.tail)) (pp_eval_primary_r d rest.tail)
      else lhs := by
  rw [pp_eval_loop_core]; rfl

theorem pp_eval_loop_core_amp (d : List Char → Bool) (lhs : Int) (rest : List Char) :
    pp_eval_loop_core d lhs ('&' :: rest) =
      if rest.head? = some '&' then
        if lhs = 0 then pp_eval_loop d 0 rest.tail
        else pp_eval_loop d (c_bool (pp_eval_primary_v d rest.tail ≠ 0)) (pp_eval_primary_r d rest.tail)
      else pp_eval_loop d (Int.land lhs (pp_eval_primary_v d rest)) (pp_eval_primary_r d rest) := by
  rw [pp_eval_loop_core]; rfl

theorem pp_eval_loop_core_bar (d : List Char → Bool) (lhs : Int) (rest : List Char) :
    pp_eval_loop_core d lhs ('|' :: rest) =
      if rest.head? = some '|' then
        if lhs = 0 then
          pp_eval_loop d (c_bool (pp_eval_primary_v d rest.tail ≠ 0)) (pp_eval_primary_r d rest.tail)
        else pp_eval_loop d 1 rest.tail
      else pp_eval_loop d (Int.lor lhs (pp_eval_primary_v d rest)) (pp_eval_primary_r d rest) := by
  rw [pp_eval_loop_core]; rfl

theorem pp_eval_loop_core_xor (d : List Char → Bool) (lhs : Int) (rest : List Char) :
    pp_eval_loop_core d lhs ('^' :: rest) =
      pp_eval_loop d (Int.xor lhs (pp_eval_primary_v d rest)) (pp_eval_primary_r d rest) := by
  rw [pp_eval_loop_core]; rfl

theorem pp_eval_loop_core_digit0 (d : List Char → Bool) (lhs : Int) (rest : List Char) :
    pp_eval_loop_core d lhs ('0' :: rest) = lhs := by
  rw [pp_eval_loop_core]; rfl

theorem pp_eval_loop_core_digit1 (d : List Char → Bool) (lhs : Int) (rest : List Char) :
    pp_eval_loop_core d lhs ('1' :: rest) = lhs := by
  rw [pp_eval_loop_core]; rfl

theorem pp_eval_loop_core_rparen (d : List Char → Bool) (lhs : Int) (rest : List Char) :
    pp_eval_loop_core d lhs (')' :: rest) = lhs := by
  rw [pp_eval_loop_core]; rfl

theorem pp_eval_expr_eq (d : List Char → Bool) (cs : List Char) :
    pp_eval_expr d cs = pp_eval_loop d (pp_eval_primary_v d cs) (pp_eval_primary_r d cs) := by
  rw [pp_eval_expr]; rfl

set_option maxRecDepth 8192 in
set_option maxHeartbeats 1600000 in
/-- C3: counterexample.  The `#if`/`#elif` constant-expression evaluator
(src/preprocess.c lines 282-309) applies NO operator precedence: it folds
each operator into the running value left to right, so `1 + 2 * 3`
evaluates to `9` = `(1+2)*3` and not the claimed `7`; and `&&` does not
bind tighter than `||`: `0 && 0 || 1` evaluates to `0` and not the claimed
`1` = `(0 && 0) || 1` (the short-circuiting `lhs = lhs && pp_eval_primary(&p)`
leaves the right operand unconsumed, so the loop stops at the stray `0`). -/
theorem pp_eval_no_precedence :
    pp_eval_expr (fun _ => false) ("1 + 2 * 3".data) = 9 ∧
    pp_eval_expr (fun _ => false) ("1 + 2 * 3".data) ≠ 7 ∧
    pp_eval_expr (fun _ => false) ("0 && 0 || 1".data) = 0 ∧
    pp_eval_expr (fun _ => false) ("0 && 0 || 1".data) ≠ 1 := by
  have h1 : pp_eval_expr (fun _ => false) ("1 + 2 * 3".data) = 9 := by
    simp [pp_eval_expr_eq, pp_eval_loop_eq, pp_eval_loop_core_nil, pp_eval_loop_core_add,
    pp_eval_loop_core_sub, pp_eval_loop_core_mul, pp_eval_loop_core_div,
    pp_eval_loop_core_mod, pp_eval_loop_core_lt, pp_eval_loop_core_gt,
    pp_eval_loop_core_eq2, pp_eval_loop_core_ne, pp_eval_loop_core_amp,
    pp_eval_loop_core_bar, pp_eval_loop_core_xor, pp_eval_loop_core_digit0,
    pp_eval_loop_core_digit1, pp_eval_loop_core_rparen,
    pp_eval_primary_v_eq, pp_eval_primary_r_eq, pp_eval_core_v_nil, pp_eval_core_v_cons,
    pp_eval_core_r_nil, pp_eval_core_r_cons, pp_eval_atom_v, pp_eval_atom_r,
    pp_eval_atom, pp_eval_defined, pp_defined_follows_ok, pp_parse_number,
    pp_strtoll0, pp_parse_digits, pp_skip_parens, pp_skip_ws, pp_is_ws,
    pp_is_ident_char, pp_is_hex_digit, pp_is_oct_digit, pp_hex_val, pp_dec_val,
    pp_is_suffix_char, c_bool, c_shl, c_shr, List.dropWhile, List.takeWhile,
    List.head?, List.tail, List.take, List.drop]
  have h2 : pp_eval_expr (fun _ => false) ("0 && 0 || 1".data) = 0 := by
    simp [pp_eval_expr_eq, pp_eval_loop_eq, pp_eval_loop_core_nil, pp_eval_loop_core_add,
    pp_eval_loop_core_sub, pp_eval_loop_core_mul, pp_eval_loop_core_div,
    pp_eval_loop_core_mod, pp_eval_loop_core_lt, pp_eval_loop_core_gt,
    pp_eval_loop_core_eq2, pp_eval_loop_core_ne, pp_eval_loop_core_amp,
    pp_eval_loop_core_bar, pp_eval_loop_core_xor, pp_eval_loop_core_digit0,
    pp_eval_loop_core_digit1, pp_eval_loop_core_rparen,
    pp_eval_primary_v_eq, pp_eval_primary_r_eq, pp_eval_core_v_nil, pp_eval_core_v_cons,
    pp_eval_core_r_nil, pp_eval_core_r_cons, pp_eval_atom_v, pp_eval_atom_r,
    pp_eval_atom, pp_eval_defined, pp_defined_follows_ok, pp_parse_number,
    pp_strtoll0, pp_parse_digits, pp_skip_parens, pp_skip_ws, pp_is_ws,
    pp_is_ident_char, pp_is_hex_digit, pp_is_oct_digit, pp_hex_val, pp_dec_val,
    pp_is_suffix_char, c_bool, c_shl, c_shr, List.dropWhile, List.takeWhile,
    List.head?, List.tail, List.take, List.drop]
  exact ⟨h1, by rw [h1]; decide, h2, by rw [h2]; decide⟩

set_option maxRecDepth 8192 in
set_option maxHeartbeats 1600000 in
/-- C3: amended.  The evaluator is a single flat left-to-right fold with no
precedence or associativity structure: after any operator the operand is
folded into the running value immediately and the loop continues on the
remaining input (shown here for `*` and `+`; the other operators follow the
same shape, see the `pp_eval_loop_core_*` lemmas).  Hence `1 + 2 * 3`
evaluates to `(1 + 2) * 3 = 9`, and `0 && 0 || 1` evaluates to `0` because
the short-circuited `&&` leaves `` 0 || 1`` unconsumed and the loop then
stops at the non-operator `0`. -/
theorem pp_eval_flat_amended :
    (∀ (d : List Char → Bool) (lhs : Int) (rest : List Char),
      pp_eval_loop_core d lhs ('*' :: rest) =
        pp_eval_loop d (lhs * pp_eval_primary_v d rest) (pp_eval_primary_r d rest)) ∧
    (∀ (d : List Char → Bool) (lhs : Int) (rest : List Char),
      pp_eval_loop_core d lhs ('+' :: rest) =
        if rest.head? = some '+' then lhs
        else pp_eval_loop d (lhs + pp_eval_primary_v d rest) (pp_eval_primary_r d rest)) ∧
    pp_eval_expr (fun _ => false) ("1 + 2 * 3".data) = (1 + 2) * 3 ∧
    pp_eval_expr (fun _ => false) ("0 && 0 || 1".data) = 0 := by
  refine ⟨pp_eval_loop_core_mul, pp_eval_loop_core_add, ?_, ?_⟩
  · simp [pp_eval_expr_eq, pp_eval_loop_eq, pp_eval_loop_core_nil, pp_eval_loop_core_add,
    pp_eval_loop_core_sub, pp_eval_loop_core_mul, pp_eval_loop_core_div,
    pp_eval_loop_core_mod, pp_eval_loop_core_lt, pp_eval_loop_core_gt,
    pp_eval_loop_core_eq2, pp_eval_loop_core_ne, pp_eval_loop_core_amp,
    pp_eval_loop_core_bar, pp_eval_loop_core_xor, pp_eval_loop_core_digit0,
    pp_eval_loop_core_digit1, pp_eval_loop_core_rparen,
    pp_eval_primary_v_eq, pp_eval_primary_r_eq, pp_eval_core_v_nil, pp_eval_core_v_cons,
    pp_eval_core_r_nil, pp_eval_core_r_cons, pp_eval_atom_v, pp_eval_atom_r,
    pp_eval_atom, pp_eval_defined, pp_defined_follows_ok, pp_parse_number,
    pp_strtoll0, pp_parse_digits, pp_skip_parens, pp_skip_ws, pp_is_ws,
    pp_is_ident_char, pp_is_hex_digit, pp_is_oct_digit, pp_hex_val, pp_dec_val,
    pp_is_suffix_char, c_bool, c_shl, c_shr, List.dropWhile, List.takeWhile,
    List.head?, List.tail, List.take, List.drop]
  · simp [pp_eval_expr_eq, pp_eval_loop_eq, pp_eval_loop_core_nil, pp_eval_loop_core_add,
    pp_eval_loop_core_sub, pp_eval_loop_core_mul, pp_eval_loop_core_div,
    pp_eval_loop_core_mod, pp_eval_loop_core_lt, pp_eval_loop_core_gt,
    pp_eval_loop_core_eq2, pp_eval_loop_core_ne, pp_eval_loop_core_amp,
    pp_eval_loop_core_bar, pp_eval_loop_core_xor, pp_eval_loop_core_digit0,
    pp_eval_loop_core_digit1, pp_eval_loop_core_rparen,
    pp_eval_primary_v_eq, pp_eval_primary_r_eq, pp_eval_core_v_nil, pp_eval_core_v_cons,
    pp_eval_core_r_nil, pp_eval_core_r_cons, pp_eval_atom_v, pp_eval_atom_r,
    pp_eval_atom, pp_eval_defined, pp_defined_follows_ok, pp_parse_number,
    pp_strtoll0, pp_parse_digits, pp_skip_parens, pp_skip_ws, pp_is_ws,
    pp_is_ident_char, pp_is_hex_digit, pp_is_oct_digit, pp_hex_val, pp_dec_val,
    pp_is_suffix_char, c_bool, c_shl, c_shr, List.dropWhile, List.takeWhile,
    List.head?, List.tail, List.take, List.drop]

/-- C3: instance of the amended flat-fold equation at a concrete input. -/
theorem pp_eval_flat_amended_witness :
    pp_eval_loop_core (fun _ => false) 5 ('*' :: " 3".data) =
      pp_eval_loop (fun _ => false)
        (5 * pp_eval_primary_v (fun _ => false) (" 3".data))
        (pp_eval_primary_r (fun _ => false) (" 3".data)) :=
  pp_eval_flat_amended.1 (fun _ => false) 5 (" 3".data)

set_option maxRecDepth 8192 in
set_option maxHeartbeats 1600000 in
/-- C10: the `#if`/`#elif` evaluator is total — `pp_eval_expr` is a total
function (its recursion terminates on every input string, which the
well-founded definition itself establishes), and in particular `/` and `%`
with a right operand that evaluates to 0 produce the value 0 (the
`lhs = r ? lhs / r : 0` guards at src/preprocess.c lines 291-292) instead
of faulting, so `#if 1/0` yields value 0 and the `#if` handler
(src/preprocess.c lines 711-728, modelled by `pp_if_step`) enters the
false branch by setting `skip_depth` to 1. -/
theorem pp_eval_total_div_zero :
    (∀ (d : List Char → Bool) (cs : List Char), ∃ v : Int, pp_eval_expr d cs = v) ∧
    (∀ (d : List Char → Bool) (lhs : Int) (rest : List Char),
      pp_eval_primary_v d rest = 0 →
        pp_eval_loop_core d lhs ('/' :: rest) =
          pp_eval_loop d 0 (pp_eval_primary_r d rest)) ∧
    (∀ (d : List Char → Bool) (lhs : Int) (rest : List Char),
      pp_eval_primary_v d rest = 0 →
        pp_eval_loop_core d lhs ('%' :: rest) =
          pp_eval_loop d 0 (pp_eval_primary_r d rest)) ∧
    pp_eval_expr (fun _ => false) ("1/0".data) = 0 ∧
    pp_eval_expr (fun _ => false) ("7 % 0".data) = 0 ∧
    pp_if_step 0 (pp_eval_expr (fun _ => false) ("1/0".data)) = 1 := by
  have hdiv : pp_eval_expr (fun _ => false) ("1/0".data) = 0 := by
    simp [pp_eval_expr_eq, pp_eval_loop_eq, pp_eval_loop_core_nil, pp_eval_loop_core_add,
    pp_eval_loop_core_sub, pp_eval_loop_core_mul, pp_eval_loop_core_div,
    pp_eval_loop_core_mod, pp_eval_loop_core_lt, pp_eval_loop_core_gt,
    pp_eval_loop_core_eq2, pp_eval_loop_core_ne, pp_eval_loop_core_amp,
    pp_eval_loop_core_bar, pp_eval_loop_core_xor, pp_eval_loop_core_digit0,
    pp_eval_loop_core_digit1, pp_eval_loop_core_rparen,
    pp_eval_primary_v_eq, pp_eval_primary_r_eq, pp_eval_core_v_nil, pp_eval_core_v_cons,
    pp_eval_core_r_nil, pp_eval_core_r_cons, pp_eval_atom_v, pp_eval_atom_r,
    pp_eval_atom, pp_eval_defined, pp_defined_follows_ok, pp_parse_number,
    pp_strtoll0, pp_parse_digits, pp_skip_parens, pp_skip_ws, pp_is_ws,
    pp_is_ident_char, pp_is_hex_digit, pp_is_oct_digit, pp_hex_val, pp_dec_val,
    pp_is_suffix_char, c_bool, c_shl, c_shr, List.dropWhile, List.takeWhile,
    List.head?, List.tail, List.take, List.drop]
  refine ⟨fun d cs => ⟨_, rfl⟩, ?_, ?_, hdiv, ?_, ?_⟩
  · intro d lhs rest h
    rw [pp_eval_loop_core_div, h]
    simp
  · intro d lhs rest h
    rw [pp_eval_loop_core_mod, h]
    simp
  · simp [pp_eval_expr_eq, pp_eval_loop_eq, pp_eval_loop_core_nil, pp_eval_loop_core_add,
    pp_eval_loop_core_sub, pp_eval_loop_core_mul, pp_eval_loop_core_div,
    pp_eval_loop_core_mod, pp_eval_loop_core_lt, pp_eval_loop_core_gt,
    pp_eval_loop_core_eq2, pp_eval_loop_core_ne, pp_eval_loop_core_amp,
    pp_eval_loop_core_bar, pp_eval_loop_core_xor, pp_eval_loop_core_digit0,
    pp_eval_loop_core_digit1, pp_eval_loop_core_rparen,
    pp_eval_primary_v_eq, pp_eval_primary_r_eq, pp_eval_core_v_nil, pp_eval_core_v_cons,
    pp_eval_core_r_nil, pp_eval_core_r_cons, pp_eval_atom_v, pp_eval_atom_r,
    pp_eval_atom, pp_eval_defined, pp_defined_follows_ok, pp_parse_number,
    pp_strtoll0, pp_parse_digits, pp_skip_parens, pp_skip_ws, pp_is_ws,
    pp_is_ident_char, pp_is_hex_digit, pp_is_oct_digit, pp_hex_val, pp_dec_val,
    pp_is_suffix_char, c_bool, c_shl, c_shr, List.dropWhile, List.takeWhile,
    List.head?, List.tail, List.take, List.drop]
  · rw [hdiv]; decide

set_option maxRecDepth 8192 in
set_option maxHeartbeats 1600000 in
/-- C10: instances of the divide-by-zero and modulo-by-zero clauses at a
concrete zero right operand. -/
theorem pp_eval_total_div_zero_witness :
    (pp_eval_loop_core (fun _ => false) 1 ('/' :: " 0".data) =
      pp_eval_loop (fun _ => false) 0 (pp_eval_primary_r (fun _ => false) (" 0".data))) ∧
    (pp_eval_loop_core (fun _ => false) 7 ('%' :: " 0".data) =
      pp_eval_loop (fun _ => false) 0 (pp_eval_primary_r (fun _ => false) (" 0".data))) :=
  ⟨pp_eval_total_div_zero.2.1 (fun _ => false) 1 (" 0".data) (by
      simp [pp_eval_expr_eq, pp_eval_loop_eq, pp_eval_loop_core_nil, pp_eval_loop_core_add,
    pp_eval_loop_core_sub, pp_eval_loop_core_mul, pp_eval_loop_core_div,
    pp_eval_loop_core_mod, pp_eval_loop_core_lt, pp_eval_loop_core_gt,
    pp_eval_loop_core_eq2, pp_eval_loop_core_ne, pp_eval_loop_core_amp,
    pp_eval_loop_core_bar, pp_eval_loop_core_xor, pp_eval_loop_core_digit0,
    pp_eval_loop_core_digit1, pp_eval_loop_core_rparen,
    pp_eval_primary_v_eq, pp_eval_primary_r_eq, pp_eval_core_v_nil, pp_eval_core_v_cons,
    pp_eval_core_r_nil, pp_eval_core_r_cons, pp_eval_atom_v, pp_eval_atom_r,
    pp_eval_atom, pp_eval_defined, pp_defined_follows_ok, pp_parse_number,
    pp_strtoll0, pp_parse_digits, pp_skip_parens, pp_skip_ws, pp_is_ws,
    pp_is_ident_char, pp_is_hex_digit, pp_is_oct_digit, pp_hex_val, pp_dec_val,
    pp_is_suffix_char, c_bool, c_shl, c_shr, List.dropWhile, List.takeWhile,
    List.head?, List.tail, List.take, List.drop]),
   pp_eval_total_div_zero.2.2.1 (fun _ => false) 7 (" 0".data) (by
      simp [pp_eval_expr_eq, pp_eval_loop_eq, pp_eval_loop_core_nil, pp_eval_loop_core_add,
    pp_eval_loop_core_sub, pp_eval_loop_core_mul, pp_eval_loop_core_div,
    pp_eval_loop_core_mod, pp_eval_loop_core_lt, pp_eval_loop_core_gt,
    pp_eval_loop_core_eq2, pp_eval_loop_core_ne, pp_eval_loop_core_amp,
    pp_eval_loop_core_bar, pp_eval_loop_core_xor, pp_eval_loop_core_digit0,
    pp_eval_loop_core_digit1, pp_eval_loop_core_rparen,
    pp_eval_primary_v_eq, pp_eval_primary_r_eq, pp_eval_core_v_nil, pp_eval_core_v_cons,
    pp_eval_core_r_nil, pp_eval_core_r_cons, pp_eval_atom_v, pp_eval_atom_r,
    pp_eval_atom, pp_eval_defined, pp_defined_follows_ok, pp_parse_number,
    pp_strtoll0, pp_parse_digits, pp_skip_parens, pp_skip_ws, pp_is_ws,
    pp_is_ident_char, pp_is_hex_digit, pp_is_oct_digit, pp_hex_val, pp_dec_val,
    pp_is_suffix_char, c_bool, c_shl, c_shr, List.dropWhile, List.takeWhile,
    List.head?, List.tail, List.take, List.drop])⟩

/-! ### Theorems for claims C7 and C9

`sp_ok l` states that `l` has no occurrence of `.sp` and does not end in
`.` or `.s`; it is preserved by concatenation (`sp_ok_append`: an
occurrence straddling the boundary would need the left part to end in `.`
or `.s`), holds for every dot-free string (`sp_ok_no_dot`), and is proved
for every string `gen_expr` can produce (`gen_expr_sp_ok`). -/

theorem has_dsp_triple_false {a b c : Char} (h : ¬(a = '.' ∧ b = 's' ∧ c = 'p')) :
    (a == '.' && b == 's' && c == 'p') = false := by
  simp only [Bool.and_eq_false_iff, beq_eq_false_iff_ne, ne_eq]
  tauto

theorem has_dsp_append (y : List Char) (h4 : has_dsp y = false) :
    ∀ x : List Char, has_dsp x = false → x.getLast? ≠ some '.' →
      x.reverse.take 2 ≠ ['s', '.'] → has_dsp (x ++ y) = false := by
  intro x
  induction x with
  | nil => intro _ _ _; simpa using h4
  | cons a x' ih =>
    intro h1 h2 h3
    match x' with
    | [] =>
        have ha : a ≠ '.' := fun hcon => h2 (by simp [hcon, List.getLast?])
        match y with
        | [] => simpa using h1
        | [_] => rfl
        | b :: c :: t =>
            simp only [List.nil_append, List.cons_append, has_dsp,
              Bool.or_eq_false_iff]
            exact ⟨has_dsp_triple_false (fun hc => ha hc.1), h4⟩
    | [b] =>
        have hb : b ≠ '.' := fun hcon => h2 (by simp [hcon, List.getLast?])
        have hnsb : ¬(b = 's' ∧ a = '.') := by
          intro hc; exact h3 (by simp [hc.1, hc.2])
        have hrest : has_dsp ([b] ++ y) = false :=
          ih rfl (by simp [List.getLast?, hb]) (by simp)
        match y with
        | [] => simpa using h1
        | c :: t =>
            simp only [List.cons_append, List.nil_append] at hrest ⊢
            simp only [has_dsp, Bool.or_eq_false_iff]
            exact ⟨has_dsp_triple_false (fun hc => hnsb ⟨hc.2.1, hc.1⟩), hrest⟩
    | b :: c :: x'' =>
        have h1' : has_dsp (b :: c :: x'') = false := by
          simp only [has_dsp, Bool.or_eq_false_iff] at h1
          exact h1.2
        have htrip : (a == '.' && b == 's' && c == 'p') = false := by
          simp only [has_dsp, Bool.or_eq_false_iff] at h1
          exact h1.1
        have h2' : (b :: c :: x'').getLast? ≠ some '.' := by
          rwa [List.getLast?_cons_cons] at h2
        have h3' : (b :: c :: x'').reverse.take 2 ≠ ['s', '.'] := by
          intro hcon
          apply h3
          have hlen : 2 ≤ (b :: c :: x'').reverse.length := by simp
          calc (a :: b :: c :: x'').reverse.take 2
              = ((b :: c :: x'').reverse ++ [a]).take 2 := by
                simp [List.reverse_cons]
            _ = (b :: c :: x'').reverse.take 2 := List.take_append_of_le_length hlen
            _ = ['s', '.'] := hcon
        have hrest := ih h1' h2' h3'
        simp only [List.cons_append] at hrest ⊢
        simp only [has_dsp, Bool.or_eq_false_iff]
        exact ⟨htrip, hrest⟩

theorem sp_ok_append {x y : List Char} (hx : sp_ok x) (hy : sp_ok y) :
    sp_ok (x ++ y) := by
  obtain ⟨hx1, hx2, hx3⟩ := hx
  obtain ⟨hy1, hy2, hy3⟩ := hy
  refine ⟨has_dsp_append y hy1 x hx1 hx2 hx3, ?_, ?_⟩
  · match y with
    | [] => simpa using hx2
    | b :: t =>
      rw [List.getLast?_append_cons]
      exact hy2
  · match y with
    | [] => simpa using hx3
    | [b] =>
        have hb : b ≠ '.' := fun hcon => hy2 (by simp [hcon, List.getLast?])
        intro hcon
        rw [List.reverse_append] at hcon
        simp only [List.reverse_singleton, List.singleton_append,
          List.take_succ_cons] at hcon
        have hb2 : b = 's' := (List.cons_eq_cons.mp hcon).1
        have htail : x.reverse.take 1 = ['.'] := (List.cons_eq_cons.mp hcon).2
        match hrx : x.reverse with
        | [] => rw [hrx] at htail; simp at htail
        | r :: rs =>
            rw [hrx] at htail
            simp only [List.take_succ_cons, List.take_zero] at htail
            have hr : r = '.' := (List.cons_eq_cons.mp htail).1
            apply hx2
            rw [← List.head?_reverse, hrx, hr]
            rfl
    | b :: c :: t =>
        intro hcon
        apply hy3
        have hlen : 2 ≤ (b :: c :: t).reverse.length := by simp
        rw [List.reverse_append, List.take_append_of_le_length hlen] at hcon
        exact hcon

theorem sp_ok_no_dot {l : List Char} (h : ('.' : Char) ∉ l) : sp_ok l := by
  refine ⟨?_, ?_, ?_⟩
  · induction l with
    | nil => rfl
    | cons a l' ih =>
      have ha : a ≠ '.' := fun hc => h (hc ▸ List.mem_cons_self a l')
      have h' : ('.' : Char) ∉ l' := fun hc => h (List.mem_cons_of_mem a hc)
      match l' with
      | [] => rfl
      | [_] => rfl
      | b :: c :: t =>
          simp only [has_dsp, Bool.or_eq_false_iff]
          exact ⟨has_dsp_triple_false (fun hc => ha hc.1), ih h'⟩
  · intro hc
    obtain ⟨hne, heq⟩ := List.mem_getLast?_eq_getLast hc
    exact h (by rw [heq]; exact List.getLast_mem hne)
  · intro hc
    have : ('.' : Char) ∈ l.reverse.take 2 := by rw [hc]; simp
    exact h (List.mem_reverse.mp (List.mem_of_mem_take this))


theorem sp_okS_append {s t : String} (hs : sp_okS s) (ht : sp_okS t) :
    sp_okS (s ++ t) := by
  unfold sp_okS
  rw [String.data_append]
  exact sp_ok_append hs ht

theorem sp_okS_name {name : String} (h : name.data.contains '.' = false) :
    sp_okS name := by
  apply sp_ok_no_dot
  intro hc
  simp at h
  exact h hc

theorem natDecGo_no_dot (fuel : Nat) : ∀ n c, c ∈ natDecGo fuel n → c ≠ '.' := by
  induction fuel with
  | zero => intro n c hc; simp [natDecGo] at hc
  | succ fuel ih =>
    intro n c hc
    simp only [natDecGo] at hc
    split at hc
    · simp only [List.mem_singleton] at hc
      subst hc
      rename_i hn
      interval_cases n <;> decide
    · rw [List.mem_append] at hc
      rcases hc with hc | hc
      · exact ih _ _ hc
      · simp only [List.mem_singleton] at hc
        subst hc
        have hm : n % 10 < 10 := Nat.mod_lt _ (by omega)
        set m := n % 10 with hmdef
        interval_cases m <;> decide

theorem sp_okS_intDec (i : Int) : sp_okS (intDec i) := by
  unfold intDec
  split
  · apply sp_okS_append (by decide)
    exact sp_ok_no_dot (fun hc => natDecGo_no_dot _ _ _ hc rfl)
  · exact sp_ok_no_dot (fun hc => natDecGo_no_dot _ _ _ hc rfl)

theorem sp_okS_getter (t : Option GTy) : sp_okS ("rt.mem." ++ js_getter t ++ "(") := by
  match t with
  | none => decide
  | some (.mk k u s b) =>
      have : js_getter (some (.mk k u s b)) =
          js_getter (some (.mk k u 0 none)) := by
        cases k <;> rfl
      rw [show ("rt.mem." ++ js_getter (some (.mk k u s b)) ++ "(") =
        ("rt.mem." ++ js_getter (some (.mk k u 0 none)) ++ "(") from by rw [this]]
      cases k <;> cases u <;> decide

theorem sp_okS_addr (cg : CG) (name : String)
    (h : name.data.contains '.' = false) : sp_okS (gen_addr_ident cg name) := by
  unfold gen_addr_ident
  match cg_var_find cg name with
  | some v =>
      dsimp only
      split
      · exact sp_okS_append (sp_okS_append (by decide) (sp_okS_intDec _)) (by decide)
      · exact sp_okS_intDec _
  | none =>
      dsimp only
      match cg.symtab name with
      | some sym =>
          dsimp only
          split
          · exact sp_okS_append (by decide) (sp_okS_name h)
          · exact sp_okS_append (sp_okS_append (by decide) (sp_okS_name h)) (by decide)
      | none =>
          exact sp_okS_append (sp_okS_append (by decide) (sp_okS_name h)) (by decide)

theorem sp_okS_op (k : GBinOp) : sp_okS (gbin_op_str k) := by
  cases k <;> decide

theorem sp_okS_f64_wrap (d u : Bool) {s : String} (hs : sp_okS s) :
    sp_okS (gen_f64_wrap d u s) := by
  unfold gen_f64_wrap
  split
  · exact sp_okS_append (sp_okS_append (by decide) hs) (by decide)
  · split
    · exact sp_okS_append (sp_okS_append (by decide) hs) (by decide)
    · exact hs

set_option maxHeartbeats 800000 in
theorem gen_expr_sp_ok (cg : CG) :
    ∀ e : GNode, ids_no_dot e = true → sp_okS (gen_expr cg e) := by
  intro e
  induction e with
  | intLit i t => intro _; exact sp_okS_intDec i
  | charLit c t => intro _; exact sp_okS_intDec c
  | ident name t =>
      intro h
      simp only [ids_no_dot, Bool.not_eq_eq_eq_not, Bool.not_true] at h
      simp only [gen_expr]
      match cg_var_find cg name with
      | none =>
          dsimp only
          match cg.symtab name with
          | some sym =>
              dsimp only
              split
              · exact sp_okS_append (by decide) (sp_okS_name h)
              · split
                · exact sp_okS_intDec _
                · split
                  · split
                    · decide
                    · split
                      · decide
                      · split
                        · decide
                        · exact sp_okS_append (sp_okS_append (by decide) (sp_okS_name h)) (by decide)
                  · exact sp_okS_append (sp_okS_append (by decide) (sp_okS_name h)) (by decide)
          | none =>
              exact sp_okS_append (sp_okS_append (by decide) (sp_okS_name h)) (by decide)
      | some v =>
          dsimp only
          split
          · exact sp_okS_addr cg name h
          · split
            · exact sp_okS_append (by decide) (sp_okS_name h)
            · exact sp_okS_append
                (sp_okS_append (sp_okS_getter v.ty) (sp_okS_addr cg name h)) (by decide)
  | neg l t ih =>
      intro h
      simp only [ids_no_dot] at h
      simp only [gen_expr]
      split
      · exact sp_okS_append (sp_okS_append (by decide) (ih h)) (by decide)
      · exact sp_okS_append (sp_okS_append (by decide) (ih h)) (by decide)
  | pos l t ih =>
      intro h
      simp only [ids_no_dot] at h
      exact sp_okS_append (sp_okS_append (by decide) (ih h)) (by decide)
  | notE l t ih =>
      intro h
      simp only [ids_no_dot] at h
      exact sp_okS_append (sp_okS_append (by decide) (ih h)) (by decide)
  | bitnot l t ih =>
      intro h
      simp only [ids_no_dot] at h
      exact sp_okS_append (sp_okS_append (by decide) (ih h)) (by decide)
  | binary k l r t ihl ihr =>
      intro h
      simp only [ids_no_dot, Bool.and_eq_true] at h
      obtain ⟨hl, hr⟩ := h
      simp only [gen_expr]
      split
      · split
        · exact sp_okS_append (sp_okS_append (sp_okS_append (sp_okS_append
            (sp_okS_append (sp_okS_append (by decide) (sp_okS_f64_wrap _ _ (ihl hl)))
              (by decide)) (sp_okS_op k)) (by decide))
            (sp_okS_f64_wrap _ _ (ihr hr))) (by decide)
        · exact sp_okS_append (sp_okS_append (sp_okS_append (sp_okS_append
            (sp_okS_append (sp_okS_append (by decide) (sp_okS_f64_wrap _ _ (ihl hl)))
              (by decide)) (sp_okS_op k)) (by decide))
            (sp_okS_f64_wrap _ _ (ihr hr))) (by decide)
      · split
        · have hwl : sp_okS (if type_is_u64 l.ty then gen_expr cg l
              else "BigInt(" ++ gen_expr cg l ++ ")") := by
            split
            · exact ihl hl
            · exact sp_okS_append (sp_okS_append (by decide) (ihl hl)) (by decide)
          have hwr : sp_okS (if type_is_u64 r.ty then gen_expr cg r
              else "BigInt(" ++ gen_expr cg r ++ ")") := by
            split
            · exact ihr hr
            · exact sp_okS_append (sp_okS_append (by decide) (ihr hr)) (by decide)
          exact sp_okS_append (sp_okS_append (sp_okS_append (sp_okS_append
            (sp_okS_append (sp_okS_append (by decide) hwl) (by decide))
            (sp_okS_op k)) (by decide)) hwr) (by decide)
        · have hesz : ∀ j : Int, sp_okS (if j > 1 then " * " ++ intDec j else "") := by
            intro j
            split
            · exact sp_okS_append (by decide) (sp_okS_intDec j)
            · decide
          have hesz2 : ∀ j : Int, sp_okS (if j > 1 then " / " ++ intDec j else "") := by
            intro j
            split
            · exact sp_okS_append (by decide) (sp_okS_intDec j)
            · decide
          split
          · exact sp_okS_append (sp_okS_append (sp_okS_append (sp_okS_append
              (sp_okS_append (sp_okS_append (sp_okS_append (by decide) (ihl hl))
                (by decide)) (sp_okS_op k)) (by decide)) (ihr hr)) (hesz _)) (by decide)
          · split
            · exact sp_okS_append (sp_okS_append (sp_okS_append (sp_okS_append
                (sp_okS_append (by decide) (ihl hl)) (hesz _)) (by decide))
                (ihr hr)) (by decide)
            · split
              · exact sp_okS_append (sp_okS_append (sp_okS_append (sp_okS_append
                  (sp_okS_append (sp_okS_append (by decide) (ihl hl)) (by decide))
                  (ihr hr)) (by decide)) (hesz2 _)) (by decide)
              · split
                · exact sp_okS_append (sp_okS_append (sp_okS_append (sp_okS_append
                    (by decide) (ihl hl)) (by decide)) (ihr hr)) (by decide)
                · split
                  · exact sp_okS_append (sp_okS_append (sp_okS_append (sp_okS_append
                      (sp_okS_append (sp_okS_append (by decide) (ihl hl)) (by decide))
                      (sp_okS_op k)) (by decide)) (ihr hr)) (by decide)
                  · exact sp_okS_append (sp_okS_append (sp_okS_append (sp_okS_append
                      (sp_okS_append (sp_okS_append (by decide) (ihl hl)) (by decide))
                      (sp_okS_op k)) (by decide)) (ihr hr)) (by decide)
  | andE l r t ihl ihr =>
      intro h
      simp only [ids_no_dot, Bool.and_eq_true] at h
      exact sp_okS_append (sp_okS_append (sp_okS_append (sp_okS_append
        (by decide) (ihl h.1)) (by decide)) (ihr h.2)) (by decide)
  | orE l r t ihl ihr =>
      intro h
      simp only [ids_no_dot, Bool.and_eq_true] at h
      exact sp_okS_append (sp_okS_append (sp_okS_append (sp_okS_append
        (by decide) (ihl h.1)) (by decide)) (ihr h.2)) (by decide)


set_option maxRecDepth 4096 in
/-- C7: counterexample instance.  In BigInt mode (a `long long` operand,
src/codegen.c lines 509-521) a comparison is emitted as a bare
parenthesized JS comparison with no `? 1 : 0` normalization — the emitted
expression evaluates to a JS boolean, not to the numbers 1/0 the claim
requires — because the `is_cmp` flag computed at line 511 is never used.
The scalar mode (lines 547-549) and float64 mode (lines 491-496) of the
same operator do emit the `? 1 : 0` normalization, as the last two
conjuncts show. -/
theorem u64_cmp_lacks_normalization :
    gen_expr cg_frame (.binary .ND_LT (.ident "a" (some gty_ll))
        (.ident "b" (some gty_ll)) (some gty_int)) =
      "(rt.mem.readBigInt64((bp + (-8))) < rt.mem.readBigInt64((bp + (-16))))" ∧
    ¬ List.IsInfix ("? 1 : 0".data)
      ((gen_expr cg_frame (.binary .ND_LT (.ident "a" (some gty_ll))
        (.ident "b" (some gty_ll)) (some gty_int))).data) ∧
    gen_expr cg_frame (.binary .ND_LT (.ident "c" (some gty_int))
        (.ident "d" (some gty_int)) (some gty_int)) =
      "((rt.mem.readInt32((bp + (-24))) < rt.mem.readInt32((bp + (-32)))) ? 1 : 0)" ∧
    gen_expr cg_frame (.binary .ND_LT (.ident "e" (some gty_dbl))
        (.ident "f" (some gty_dbl)) (some gty_int)) =
      "((rt.f64(rt.mem.readBigUint64((bp + (-40)))) < rt.f64(rt.mem.readBigUint64((bp + (-48))))) ? 1 : 0)" := by
  refine ⟨by decide, by decide, by decide, by decide⟩

/-- C9: for a `return e;` statement in a function whose return type is not
a struct or union, the emitted statement is exactly
`var __ret = <expr>; rt.mem.sp = saved_sp; return __ret;` — the expression
text precedes the stack-pointer restore — and the generated expression text
itself never contains the restore (it has no occurrence of `.sp`, while
the restore text does), so the restoration cannot precede the evaluation
of `e` anywhere in the emitted statement. -/
theorem return_restores_sp_after_expr :
    (∀ (cg : CG) (ind : Nat) (e : GNode),
      gen_ret_stmt cg ind e =
        indent_str ind ++ "var __ret = " ++ gen_expr cg e ++
          "; rt.mem.sp = saved_sp; return __ret;\n") ∧
    (∀ (cg : CG) (e : GNode), ids_no_dot e = true →
      has_dsp (gen_expr cg e).data = false) ∧
    has_dsp ("; rt.mem.sp = saved_sp; return __ret;\n".data) = true :=
  ⟨fun _ _ _ => rfl, fun cg e h => (gen_expr_sp_ok cg e h).1, by decide⟩

set_option maxRecDepth 4096 in
/-- C9: instance of the expression clause at a concrete expression. -/
theorem return_restores_sp_after_expr_witness :
    ids_no_dot (.binary .ND_ADD (.ident "c" (some gty_int))
      (.intLit 1 (some gty_int)) (some gty_int)) = true ∧
    has_dsp ((gen_expr cg_frame (.binary .ND_ADD (.ident "c" (some gty_int))
      (.intLit 1 (some gty_int)) (some gty_int))).data) = false :=
  ⟨by decide,
   return_restores_sp_after_expr.2.1 cg_frame
     (.binary .ND_ADD (.ident "c" (some gty_int))
       (.intLit 1 (some gty_int)) (some gty_int)) (by decide)⟩
